import Mathlib

/-!
A shallow embedding of the transactional hierarchical configuration store
in `libs/core/src/storage`: the JSON- and TOML-backed transaction engines
(`json_transaction_impl.cpp`, `toml_transaction_impl.cpp`), their handle
tables and location resolution, the typed accessors and constructors, and
the store commit/rollback lifecycle (`json_store_impl.cpp`,
`i_transaction.h`), together with theorems about the engine's documented
properties.

Conventions of the embedding:
* C++ `uint64_t` handle values are modelled as `Nat`; `0` is the invalid
  handle value, exactly as in `store_handle.h`.
* `std::unordered_map<uint64_t, Node>`, `nlohmann::json` objects and
  `toml::table`s are modelled as association lists with first-match
  lookup; key sets stay unique along every reachable state, and none of
  the properties proved here depend on iteration order.
* IEEE-754 double payloads are carried opaquely (as bit patterns); no
  property proved here performs floating-point arithmetic.
* File persistence (`save_to_file`: write `<path>.tmp`, then rename) is
  modelled by an explicit filesystem state plus an oracle saying whether
  the temporary-file write and the rename succeed.
* `std::stoull` on the all-digit location segments is modelled by exact
  decimal evaluation into `Nat` (the handle table only ever stores index
  segments produced from in-range `size_t` values).
-/

namespace IonVortex

/-- The closed error set of the storage layer: the `core_errc` values of
`core_errc.h` / the `ErrorCode` values the storage implementation uses. -/
inductive Err
  | invalidHandle
  | pathSyntax
  | keyNotFound
  | indexOutOfRange
  | typeMismatch
  | ioFailure
  | parseError
  | alreadyExists
  | invalidState
  | messageTooLong
  | invalidArgument
  | unknownErr
deriving DecidableEq, Repr

/-- First-match lookup in an association list (models `find`/`contains`
on the C++ map types used by the implementation). -/
def alFind {κ α : Type} [DecidableEq κ] : List (κ × α) → κ → Option α
  | [], _ => none
  | (k, v) :: rest, key => if k = key then some v else alFind rest key

/-- Insert-or-assign in an association list: replaces the value in place
when the key exists, otherwise appends (models JSON `operator[]=` and,
under a `contains` guard, `toml::table::insert`). -/
def alInsert {κ α : Type} [DecidableEq κ] : List (κ × α) → κ → α → List (κ × α)
  | [], key, v => [(key, v)]
  | (k, w) :: rest, key, v =>
    if k = key then (key, v) :: rest else (k, w) :: alInsert rest key v

/-- Erase a key from an association list (models `erase`). -/
def alErase {κ α : Type} [DecidableEq κ] : List (κ × α) → κ → List (κ × α)
  | [], _ => []
  | (k, w) :: rest, key => if k = key then rest else (k, w) :: alErase rest key

/-- A location segment is an array-index candidate iff it is nonempty and
all decimal digits: `!segment.empty() && std::all_of(..., ::isdigit)`. -/
def isDigitSeg (s : String) : Bool :=
  !s.isEmpty && s.toList.all Char.isDigit

/-- Decimal value of an all-digit segment (`std::stoull`). -/
def segToIndex (s : String) : Nat :=
  s.toList.foldl (fun acc c => acc * 10 + (c.toNat - 48)) 0

/-- Key grammar `[A-Za-z_][A-Za-z0-9_]*`: first character a letter or
underscore, the rest alphanumeric or underscore.  Both backends check the
same grammar (`JsonTransaction::is_valid_key` by hand,
`TomlTransaction::is_valid_key` via `std::regex`). -/
def isValidKeyChars : List Char → Bool
  | [] => false
  | c :: rest => (c.isAlpha || c = '_') && rest.all (fun d => d.isAlphanum || d = '_')

/-- Key validity on strings. -/
def is_valid_key (s : String) : Bool := isValidKeyChars s.toList

/-- A JSON tree node (`nlohmann::json` as used by the store: null, bool,
signed 64-bit integer, double, string, array, object). -/
inductive JNode
  | jnull
  | jbool (v : Bool)
  | jint (v : Int)
  | jdouble (bits : Nat)
  | jstring (v : String)
  | jarray (elems : List JNode)
  | jobject (fields : List (String × JNode))

/-- What `node->get<double>()` yields in `JsonTransaction::get_double`:
either the stored double payload or the widening conversion of a stored
integer.  The conversion itself is kept symbolic. -/
inductive DoubleView
  | fromBits (bits : Nat)
  | fromInt (v : Int)
deriving DecidableEq, Repr

namespace JsonTransaction

/-- `JsonTransaction::navigate_to_node`, one segment at a time.  The
third argument is the position `i` of the segment in the stored location:
a segment is taken as an array index iff `i > 0` and it is all digits;
in that branch a non-array current node is a resolution failure.
Otherwise the segment is an object-key lookup. -/
def navFrom : JNode → List String → Nat → Option JNode
  | cur, [], _ => some cur
  | cur, seg :: rest, i =>
    if i > 0 && isDigitSeg seg then
      match cur with
      | .jarray elems =>
        match elems.get? (segToIndex seg) with
        | some e => navFrom e rest (i + 1)
        | none => none
      | _ => none
    else
      match cur with
      | .jobject kvs =>
        match alFind kvs seg with
        | some v => navFrom v rest (i + 1)
        | none => none
      | _ => none

/-- `JsonTransaction::navigate_to_node` from the snapshot root. -/
def navigate_to_node (root : JNode) (path : List String) : Option JNode :=
  navFrom root path 0

/-- Functional rendition of a mutation through the pointer returned by
`navigate_to_node`: replace the node at `path` by `v`, traversing with
exactly the branch conditions of `navFrom`.  On a path that does not
resolve, the tree is returned unchanged (the callers only write through
locations whose resolution has just succeeded). -/
def writeAt : JNode → List String → Nat → JNode → JNode
  | _, [], _, v => v
  | cur, seg :: rest, i, v =>
    if i > 0 && isDigitSeg seg then
      match cur with
      | .jarray elems =>
        match elems.get? (segToIndex seg) with
        | some e => .jarray (elems.set (segToIndex seg) (writeAt e rest (i + 1) v))
        | none => .jarray elems
      | other => other
    else
      match cur with
      | .jobject kvs =>
        match alFind kvs seg with
        | some e => .jobject (alInsert kvs seg (writeAt e rest (i + 1) v))
        | none => .jobject kvs
      | other => other

end JsonTransaction

/-- The state of one `JsonTransaction`: its private snapshot `data_`, the
handle table `handle_map_` (handle value to stored location), the next
handle value `next_handle_`, the `committed_` flag of the base class, and
whether the `store_` back pointer is non-null (the constructor always
receives a live store). -/
structure JTxn where
  data : JNode
  handle_map : List (Nat × List String)
  next_handle : Nat
  committed : Bool
  has_store : Bool

namespace JsonTransaction

/-- The constructor: snapshot = deep copy of the store's canonical tree,
handle table containing only the root handle `1` with the empty location,
`next_handle_ = 2`. -/
def init (initial_data : JNode) : JTxn :=
  { data := initial_data
    handle_map := [(1, [])]
    next_handle := 2
    committed := false
    has_store := true }

/-- `JsonTransaction::root`: always handle `1`. -/
def root (_ : JTxn) : Except Err Nat := .ok 1

/-- `JsonTransaction::make_handle`: hand out `next_handle_++` and record
the location. -/
def make_handle (t : JTxn) (path : List String) : JTxn × Nat :=
  ({ t with
      handle_map := alInsert t.handle_map t.next_handle path
      next_handle := t.next_handle + 1 },
    t.next_handle)

/-- `JsonTransaction::get_node`: handle-table lookup followed by location
resolution. -/
def get_node (t : JTxn) (h : Nat) : Option JNode :=
  match alFind t.handle_map h with
  | some p => navigate_to_node t.data p
  | none => none

/-- `JsonTransaction::get_node_checked`: `InvalidHandle` for raw value 0,
`InvalidHandle` again when the handle is unknown or its location no
longer resolves. -/
def get_node_checked (t : JTxn) (h : Nat) : Except Err JNode :=
  if h = 0 then .error .invalidHandle
  else
    match get_node t h with
    | some n => .ok n
    | none => .error .invalidHandle

/-- Write `v` at the location stored for handle `h`.  Used only after
`get_node_checked` succeeded, so the lookup cannot miss. -/
def write_handle (t : JTxn) (h : Nat) (v : JNode) : JTxn :=
  match alFind t.handle_map h with
  | some p => { t with data := writeAt t.data p 0 v }
  | none => t

/-- Location stored for a handle; used by `make_object`/`make_array`/
`child`/`element` to extend the parent's path.  Only called after the
parent's `get_node_checked` succeeded. -/
def handle_path (t : JTxn) (h : Nat) : List String :=
  (alFind t.handle_map h).getD []

/-- `JsonTransaction::get_bool`. -/
def get_bool (t : JTxn) (h : Nat) : Except Err Bool :=
  match get_node_checked t h with
  | .error e => .error e
  | .ok n =>
    match n with
    | .jbool v => .ok v
    | _ => .error .typeMismatch

/-- `JsonTransaction::get_int` (`is_number_integer`). -/
def get_int (t : JTxn) (h : Nat) : Except Err Int :=
  match get_node_checked t h with
  | .error e => .error e
  | .ok n =>
    match n with
    | .jint v => .ok v
    | _ => .error .typeMismatch

/-- `JsonTransaction::get_double` (`is_number`: an integral node widens
to double, a floating node is returned as stored). -/
def get_double (t : JTxn) (h : Nat) : Except Err DoubleView :=
  match get_node_checked t h with
  | .error e => .error e
  | .ok n =>
    match n with
    | .jint v => .ok (.fromInt v)
    | .jdouble b => .ok (.fromBits b)
    | _ => .error .typeMismatch

/-- `JsonTransaction::get_string`. -/
def get_string (t : JTxn) (h : Nat) : Except Err String :=
  match get_node_checked t h with
  | .error e => .error e
  | .ok n =>
    match n with
    | .jstring v => .ok v
    | _ => .error .typeMismatch

/-- `JsonTransaction::set_bool`: resolves the handle and assigns
`*node = v` with no type check. -/
def set_bool (t : JTxn) (h : Nat) (v : Bool) : JTxn × Except Err Unit :=
  match get_node_checked t h with
  | .error e => (t, .error e)
  | .ok _ => (write_handle t h (.jbool v), .ok ())

/-- `JsonTransaction::set_int`: resolves the handle and assigns
`*node = v` with no type check. -/
def set_int (t : JTxn) (h : Nat) (v : Int) : JTxn × Except Err Unit :=
  match get_node_checked t h with
  | .error e => (t, .error e)
  | .ok _ => (write_handle t h (.jint v), .ok ())

/-- `JsonTransaction::set_double`: resolves the handle and assigns
`*node = v` with no type check. -/
def set_double (t : JTxn) (h : Nat) (bits : Nat) : JTxn × Except Err Unit :=
  match get_node_checked t h with
  | .error e => (t, .error e)
  | .ok _ => (write_handle t h (.jdouble bits), .ok ())

/-- `JsonTransaction::set_string`: resolves the handle and assigns
`*node = std::string(v)` with no type check. -/
def set_string (t : JTxn) (h : Nat) (v : String) : JTxn × Except Err Unit :=
  match get_node_checked t h with
  | .error e => (t, .error e)
  | .ok _ => (write_handle t h (.jstring v), .ok ())

/-- Shared body of the JSON `make_<scalar>` constructors: key grammar
check, parent resolution, parent-is-object check, then
`(*node)[key] = v` (insert-or-assign, with no `contains` check). -/
def make_value (t : JTxn) (parent : Nat) (key : String) (v : JNode) :
    JTxn × Except Err Unit :=
  if !is_valid_key key then (t, .error .pathSyntax)
  else
    match get_node_checked t parent with
    | .error e => (t, .error e)
    | .ok n =>
      match n with
      | .jobject kvs =>
        (write_handle t parent (.jobject (alInsert kvs key v)), .ok ())
      | _ => (t, .error .typeMismatch)

/-- `JsonTransaction::make_bool`. -/
def make_bool (t : JTxn) (parent : Nat) (key : String) (v : Bool) :
    JTxn × Except Err Unit :=
  make_value t parent key (.jbool v)

/-- `JsonTransaction::make_int`. -/
def make_int (t : JTxn) (parent : Nat) (key : String) (v : Int) :
    JTxn × Except Err Unit :=
  make_value t parent key (.jint v)

/-- `JsonTransaction::make_double`. -/
def make_double (t : JTxn) (parent : Nat) (key : String) (bits : Nat) :
    JTxn × Except Err Unit :=
  make_value t parent key (.jdouble bits)

/-- `JsonTransaction::make_string`. -/
def make_string (t : JTxn) (parent : Nat) (key : String) (v : String) :
    JTxn × Except Err Unit :=
  make_value t parent key (.jstring v)

/-- Shared body of `make_object`/`make_array`: like `make_value` but also
hands out a handle for the parent's path extended by the key. -/
def make_container (t : JTxn) (parent : Nat) (key : String) (v : JNode) :
    JTxn × Except Err Nat :=
  if !is_valid_key key then (t, .error .pathSyntax)
  else
    match get_node_checked t parent with
    | .error e => (t, .error e)
    | .ok n =>
      match n with
      | .jobject kvs =>
        let t1 := write_handle t parent (.jobject (alInsert kvs key v))
        let r := make_handle t1 (handle_path t parent ++ [key])
        (r.1, .ok r.2)
      | _ => (t, .error .typeMismatch)

/-- `JsonTransaction::make_object`. -/
def make_object (t : JTxn) (parent : Nat) (key : String) : JTxn × Except Err Nat :=
  make_container t parent key (.jobject [])

/-- `JsonTransaction::make_array`. -/
def make_array (t : JTxn) (parent : Nat) (key : String) : JTxn × Except Err Nat :=
  make_container t parent key (.jarray [])

/-- `JsonTransaction::remove`: parent must be an object, key must exist,
then `erase`. -/
def remove (t : JTxn) (parent : Nat) (key : String) : JTxn × Except Err Unit :=
  match get_node_checked t parent with
  | .error e => (t, .error e)
  | .ok n =>
    match n with
    | .jobject kvs =>
      match alFind kvs key with
      | some _ => (write_handle t parent (.jobject (alErase kvs key)), .ok ())
      | none => (t, .error .keyNotFound)
    | _ => (t, .error .typeMismatch)

/-- `JsonTransaction::has`. -/
def has (t : JTxn) (parent : Nat) (key : String) : Except Err Bool :=
  match get_node_checked t parent with
  | .error e => .error e
  | .ok n =>
    match n with
    | .jobject kvs => .ok (alFind kvs key).isSome
    | _ => .error .typeMismatch

/-- `JsonTransaction::erase_element`: parent must be an array, index in
range, then erase with the following elements shifting down. -/
def erase_element (t : JTxn) (parent : Nat) (idx : Nat) : JTxn × Except Err Unit :=
  match get_node_checked t parent with
  | .error e => (t, .error e)
  | .ok n =>
    match n with
    | .jarray elems =>
      if idx < elems.length then
        (write_handle t parent (.jarray (elems.eraseIdx idx)), .ok ())
      else (t, .error .indexOutOfRange)
    | _ => (t, .error .typeMismatch)

/-- `JsonTransaction::has_element`. -/
def has_element (t : JTxn) (parent : Nat) (idx : Nat) : Except Err Bool :=
  match get_node_checked t parent with
  | .error e => .error e
  | .ok n =>
    match n with
    | .jarray elems => .ok (decide (idx < elems.length))
    | _ => .error .typeMismatch

/-- `JsonTransaction::child`: parent must be an object containing the
key; hands out a fresh handle for the extended location.  Note: no key
grammar check here. -/
def child (t : JTxn) (parent : Nat) (key : String) : JTxn × Except Err Nat :=
  match get_node_checked t parent with
  | .error e => (t, .error e)
  | .ok n =>
    match n with
    | .jobject kvs =>
      if (alFind kvs key).isSome then
        let r := make_handle t (handle_path t parent ++ [key])
        (r.1, .ok r.2)
      else (t, .error .keyNotFound)
    | _ => (t, .error .typeMismatch)

/-- `JsonTransaction::element`: parent must be an array, index in range;
hands out a fresh handle for the location extended by the decimal index
segment (`std::to_string(idx)`). -/
def element (t : JTxn) (parent : Nat) (idx : Nat) : JTxn × Except Err Nat :=
  match get_node_checked t parent with
  | .error e => (t, .error e)
  | .ok n =>
    match n with
    | .jarray elems =>
      if idx < elems.length then
        let r := make_handle t (handle_path t parent ++ [toString idx])
        (r.1, .ok r.2)
      else (t, .error .indexOutOfRange)
    | _ => (t, .error .typeMismatch)

/-- `JsonTransaction::rollback_impl`: clears the snapshot (an object's
`clear()` leaves an empty object) and the handle table. -/
def rollback_impl (t : JTxn) : JTxn :=
  { t with data := .jobject [], handle_map := [] }

/-- `ITransaction::rollback`: idempotent; runs `rollback_impl` and sets
the finalized flag unless the transaction is already finalized. -/
def rollback (t : JTxn) : JTxn :=
  if !t.committed then { rollback_impl t with committed := true } else t

end JsonTransaction

/-- The filesystem entries the persistence protocol touches: the content
at `<path>` and at `<path>.tmp`, each as a tree (serialization is kept
abstract). -/
structure FsState where
  file : Option JNode
  tmp : Option JNode

/-- Oracle for the two fallible steps of `save_to_file`: whether opening
and writing the temporary file succeeds, and whether the rename
succeeds. -/
structure IoOracle where
  writeOk : Bool
  renameOk : Bool

namespace JsonStore

/-- The state of a `JsonStore`: the open/closed flag and the canonical
tree `data_`. -/
structure State where
  is_open : Bool
  data : JNode

/-- `JsonStore::close`: from open, clears the canonical tree (an
object's `clear()` leaves an empty object) and marks the store closed;
`InvalidState` when already closed. -/
def close (s : State) : State × Except Err Unit :=
  if !s.is_open then (s, .error .invalidState)
  else ({ is_open := false, data := .jobject [] }, .ok ())

/-- `JsonStore::begin_transaction`: requires open; the new transaction
gets a deep copy of the canonical tree. -/
def begin_transaction (s : State) : Except Err JTxn :=
  if !s.is_open then .error .invalidState
  else .ok (JsonTransaction.init s.data)

/-- `JsonStore::save_to_file`: write the serialized snapshot to
`<path>.tmp` (truncate-and-write), then rename `<path>.tmp` over
`<path>`.  Either failure leaves `<path>` untouched and reports
`IoFailure`; the temporary file (possibly partial) is left behind on
failure.  There is no open-state check. -/
def save_to_file (fs : FsState) (io : IoOracle) (d : JNode) :
    FsState × Except Err Unit :=
  if !io.writeOk then ({ fs with tmp := some d }, .error .ioFailure)
  else if !io.renameOk then ({ fs with tmp := some d }, .error .ioFailure)
  else ({ file := some d, tmp := none }, .ok ())

/-- `JsonStore::update_data`: replace the canonical tree with the
committed snapshot.  No open-state check. -/
def update_data (s : State) (d : JNode) : State :=
  { s with data := d }

end JsonStore

namespace JsonTransaction

/-- `JsonTransaction::commit_impl`: `InvalidState` when there is no
associated store; otherwise persist the snapshot via
`JsonStore::save_to_file` and, only on success, replace the store's
canonical tree with the snapshot. -/
def commit_impl (s : JsonStore.State) (fs : FsState) (io : IoOracle) (t : JTxn) :
    JsonStore.State × FsState × Except Err Unit :=
  if !t.has_store then (s, fs, .error .invalidState)
  else
    match JsonStore.save_to_file fs io t.data with
    | (fs1, .ok _) => (JsonStore.update_data s t.data, fs1, .ok ())
    | (fs1, .error e) => (s, fs1, .error e)

/-- `ITransaction::commit`: runs `commit_impl` and sets the `committed_`
flag on success.  Note: there is no check of the flag before running
`commit_impl`. -/
def commit (s : JsonStore.State) (fs : FsState) (io : IoOracle) (t : JTxn) :
    JsonStore.State × FsState × JTxn × Except Err Unit :=
  match commit_impl s fs io t with
  | (s1, fs1, .ok _) => (s1, fs1, { t with committed := true }, .ok ())
  | (s1, fs1, .error e) => (s1, fs1, t, .error e)

end JsonTransaction

/-- One call of the `JsonTransaction` operation set (everything except
`root`, `commit` and `rollback`), with its arguments.  Every operation
here takes exactly one handle argument. -/
inductive JOp
  | getBool (h : Nat)
  | getInt (h : Nat)
  | getDouble (h : Nat)
  | getString (h : Nat)
  | setBool (h : Nat) (v : Bool)
  | setInt (h : Nat) (v : Int)
  | setDouble (h : Nat) (bits : Nat)
  | setString (h : Nat) (v : String)
  | makeObject (h : Nat) (key : String)
  | makeArray (h : Nat) (key : String)
  | makeBool (h : Nat) (key : String) (v : Bool)
  | makeInt (h : Nat) (key : String) (v : Int)
  | makeDouble (h : Nat) (key : String) (bits : Nat)
  | makeString (h : Nat) (key : String) (v : String)
  | removeKey (h : Nat) (key : String)
  | hasKey (h : Nat) (key : String)
  | eraseElement (h : Nat) (idx : Nat)
  | hasElement (h : Nat) (idx : Nat)
  | childOf (h : Nat) (key : String)
  | elementOf (h : Nat) (idx : Nat)

/-- The result of one operation, unified across the typed signatures. -/
inductive JOutcome
  | okUnit
  | okBool (v : Bool)
  | okInt (v : Int)
  | okDouble (v : DoubleView)
  | okString (v : String)
  | okHandle (h : Nat)
  | err (e : Err)
deriving DecidableEq, Repr

/-- Wrap a state-preserving typed result. -/
def JOutcome.ofPure {α : Type} (t : JTxn) (f : α → JOutcome) :
    Except Err α → JTxn × JOutcome
  | .ok v => (t, f v)
  | .error e => (t, .err e)

/-- Wrap a state-passing typed result. -/
def JOutcome.ofSt {α : Type} (f : α → JOutcome) :
    JTxn × Except Err α → JTxn × JOutcome
  | (t, .ok v) => (t, f v)
  | (t, .error e) => (t, .err e)

/-- Dispatch one operation against a transaction state. -/
def applyJOp (o : JOp) (t : JTxn) : JTxn × JOutcome :=
  match o with
  | .getBool h => JOutcome.ofPure t JOutcome.okBool (JsonTransaction.get_bool t h)
  | .getInt h => JOutcome.ofPure t JOutcome.okInt (JsonTransaction.get_int t h)
  | .getDouble h => JOutcome.ofPure t JOutcome.okDouble (JsonTransaction.get_double t h)
  | .getString h => JOutcome.ofPure t JOutcome.okString (JsonTransaction.get_string t h)
  | .setBool h v => JOutcome.ofSt (fun _ => .okUnit) (JsonTransaction.set_bool t h v)
  | .setInt h v => JOutcome.ofSt (fun _ => .okUnit) (JsonTransaction.set_int t h v)
  | .setDouble h b => JOutcome.ofSt (fun _ => .okUnit) (JsonTransaction.set_double t h b)
  | .setString h v => JOutcome.ofSt (fun _ => .okUnit) (JsonTransaction.set_string t h v)
  | .makeObject h k => JOutcome.ofSt JOutcome.okHandle (JsonTransaction.make_object t h k)
  | .makeArray h k => JOutcome.ofSt JOutcome.okHandle (JsonTransaction.make_array t h k)
  | .makeBool h k v => JOutcome.ofSt (fun _ => .okUnit) (JsonTransaction.make_bool t h k v)
  | .makeInt h k v => JOutcome.ofSt (fun _ => .okUnit) (JsonTransaction.make_int t h k v)
  | .makeDouble h k b => JOutcome.ofSt (fun _ => .okUnit) (JsonTransaction.make_double t h k b)
  | .makeString h k v => JOutcome.ofSt (fun _ => .okUnit) (JsonTransaction.make_string t h k v)
  | .removeKey h k => JOutcome.ofSt (fun _ => .okUnit) (JsonTransaction.remove t h k)
  | .hasKey h k => JOutcome.ofPure t JOutcome.okBool (JsonTransaction.has t h k)
  | .eraseElement h i => JOutcome.ofSt (fun _ => .okUnit) (JsonTransaction.erase_element t h i)
  | .hasElement h i => JOutcome.ofPure t JOutcome.okBool (JsonTransaction.has_element t h i)
  | .childOf h k => JOutcome.ofSt JOutcome.okHandle (JsonTransaction.child t h k)
  | .elementOf h i => JOutcome.ofSt JOutcome.okHandle (JsonTransaction.element t h i)

/-- The handle argument of an operation. -/
def JOp.handleArg : JOp → Nat
  | .getBool h | .getInt h | .getDouble h | .getString h => h
  | .setBool h _ | .setInt h _ | .setDouble h _ | .setString h _ => h
  | .makeObject h _ | .makeArray h _ => h
  | .makeBool h _ _ | .makeInt h _ _ | .makeDouble h _ _ | .makeString h _ _ => h
  | .removeKey h _ | .hasKey h _ => h
  | .eraseElement h _ | .hasElement h _ => h
  | .childOf h _ | .elementOf h _ => h

/-- Whether the operation's pre-handle checks pass: the `make_*` family
validates the key grammar before looking at the handle; every other
operation has no earlier check. -/
def JOp.preOk : JOp → Bool
  | .makeObject _ k | .makeArray _ k => is_valid_key k
  | .makeBool _ k _ | .makeInt _ k _ | .makeDouble _ k _ | .makeString _ k _ =>
    is_valid_key k
  | _ => true

/-- A TOML tree node (`toml::node` in the shapes the store uses: table,
array, boolean, integer, floating point, string). -/
inductive TNode
  | tbool (v : Bool)
  | tint (v : Int)
  | tdouble (bits : Nat)
  | tstring (v : String)
  | tarray (elems : List TNode)
  | ttable (fields : List (String × TNode))

/-- The state of one `TomlTransaction`, mirroring `JTxn`. -/
structure TTxn where
  data : TNode
  handle_map : List (Nat × List String)
  next_handle : Nat
  committed : Bool
  has_store : Bool

namespace TomlTransaction

/-- `TomlTransaction::navigate_to_node`, one segment at a time, with the
same branch conditions as the JSON backend (`as_array` / `as_table`). -/
def navFrom : TNode → List String → Nat → Option TNode
  | cur, [], _ => some cur
  | cur, seg :: rest, i =>
    if i > 0 && isDigitSeg seg then
      match cur with
      | .tarray elems =>
        match elems.get? (segToIndex seg) with
        | some e => navFrom e rest (i + 1)
        | none => none
      | _ => none
    else
      match cur with
      | .ttable kvs =>
        match alFind kvs seg with
        | some v => navFrom v rest (i + 1)
        | none => none
      | _ => none

/-- `TomlTransaction::navigate_to_node` from the snapshot root. -/
def navigate_to_node (root : TNode) (path : List String) : Option TNode :=
  navFrom root path 0

/-- Functional rendition of a mutation through the resolved pointer,
with the traversal of `navFrom`; unchanged tree on a non-resolving path
(callers write only through just-resolved locations). -/
def writeAt : TNode → List String → Nat → TNode → TNode
  | _, [], _, v => v
  | cur, seg :: rest, i, v =>
    if i > 0 && isDigitSeg seg then
      match cur with
      | .tarray elems =>
        match elems.get? (segToIndex seg) with
        | some e => .tarray (elems.set (segToIndex seg) (writeAt e rest (i + 1) v))
        | none => .tarray elems
      | other => other
    else
      match cur with
      | .ttable kvs =>
        match alFind kvs seg with
        | some e => .ttable (alInsert kvs seg (writeAt e rest (i + 1) v))
        | none => .ttable kvs
      | other => other

/-- The constructor: deep copy of the canonical table, root handle `1`
with the empty location, `next_handle_ = 2`. -/
def init (initial_data : TNode) : TTxn :=
  { data := initial_data
    handle_map := [(1, [])]
    next_handle := 2
    committed := false
    has_store := true }

/-- `TomlTransaction::root`: always handle `1`. -/
def root (_ : TTxn) : Except Err Nat := .ok 1

/-- `TomlTransaction::make_handle`. -/
def make_handle (t : TTxn) (path : List String) : TTxn × Nat :=
  ({ t with
      handle_map := alInsert t.handle_map t.next_handle path
      next_handle := t.next_handle + 1 },
    t.next_handle)

/-- `TomlTransaction::get_node`. -/
def get_node (t : TTxn) (h : Nat) : Option TNode :=
  match alFind t.handle_map h with
  | some p => navigate_to_node t.data p
  | none => none

/-- `TomlTransaction::get_node_checked`: `InvalidArgument` for a handle
that fails `valid()` (raw value 0), `KeyNotFound` when the handle is
unknown or its location no longer resolves. -/
def get_node_checked (t : TTxn) (h : Nat) : Except Err TNode :=
  if h = 0 then .error .invalidArgument
  else
    match get_node t h with
    | some n => .ok n
    | none => .error .keyNotFound

/-- Write `v` at the location stored for handle `h`; only used after
`get_node_checked` succeeded. -/
def write_handle (t : TTxn) (h : Nat) (v : TNode) : TTxn :=
  match alFind t.handle_map h with
  | some p => { t with data := writeAt t.data p 0 v }
  | none => t

/-- Location stored for a handle (used to extend a parent's path). -/
def handle_path (t : TTxn) (h : Nat) : List String :=
  (alFind t.handle_map h).getD []

/-- `TomlTransaction::get_bool` (`as_boolean`). -/
def get_bool (t : TTxn) (h : Nat) : Except Err Bool :=
  match get_node_checked t h with
  | .error e => .error e
  | .ok n =>
    match n with
    | .tbool v => .ok v
    | _ => .error .typeMismatch

/-- `TomlTransaction::get_int` (`as_integer`). -/
def get_int (t : TTxn) (h : Nat) : Except Err Int :=
  match get_node_checked t h with
  | .error e => .error e
  | .ok n =>
    match n with
    | .tint v => .ok v
    | _ => .error .typeMismatch

/-- `TomlTransaction::get_double` (`as_floating_point`: only a floating
node qualifies; an integer node does not widen). -/
def get_double (t : TTxn) (h : Nat) : Except Err Nat :=
  match get_node_checked t h with
  | .error e => .error e
  | .ok n =>
    match n with
    | .tdouble b => .ok b
    | _ => .error .typeMismatch

/-- `TomlTransaction::get_string` (`as_string`). -/
def get_string (t : TTxn) (h : Nat) : Except Err String :=
  match get_node_checked t h with
  | .error e => .error e
  | .ok n =>
    match n with
    | .tstring v => .ok v
    | _ => .error .typeMismatch

/-- `TomlTransaction::set_bool`: type-checked (`as_boolean`) before the
assignment. -/
def set_bool (t : TTxn) (h : Nat) (v : Bool) : TTxn × Except Err Unit :=
  match get_node_checked t h with
  | .error e => (t, .error e)
  | .ok n =>
    match n with
    | .tbool _ => (write_handle t h (.tbool v), .ok ())
    | _ => (t, .error .typeMismatch)

/-- `TomlTransaction::set_int`: type-checked (`as_integer`) before the
assignment. -/
def set_int (t : TTxn) (h : Nat) (v : Int) : TTxn × Except Err Unit :=
  match get_node_checked t h with
  | .error e => (t, .error e)
  | .ok n =>
    match n with
    | .tint _ => (write_handle t h (.tint v), .ok ())
    | _ => (t, .error .typeMismatch)

/-- `TomlTransaction::set_double`: type-checked (`as_floating_point`)
before the assignment. -/
def set_double (t : TTxn) (h : Nat) (bits : Nat) : TTxn × Except Err Unit :=
  match get_node_checked t h with
  | .error e => (t, .error e)
  | .ok n =>
    match n with
    | .tdouble _ => (write_handle t h (.tdouble bits), .ok ())
    | _ => (t, .error .typeMismatch)

/-- `TomlTransaction::set_string`: type-checked (`as_string`) before the
assignment. -/
def set_string (t : TTxn) (h : Nat) (v : String) : TTxn × Except Err Unit :=
  match get_node_checked t h with
  | .error e => (t, .error e)
  | .ok n =>
    match n with
    | .tstring _ => (write_handle t h (.tstring v), .ok ())
    | _ => (t, .error .typeMismatch)

/-- Shared body of the TOML `make_<scalar>` constructors: key grammar
check, parent resolution, parent-is-table check, `AlreadyExists` when
the key is present, otherwise `insert`. -/
def make_value (t : TTxn) (parent : Nat) (key : String) (v : TNode) :
    TTxn × Except Err Unit :=
  if !is_valid_key key then (t, .error .pathSyntax)
  else
    match get_node_checked t parent with
    | .error e => (t, .error e)
    | .ok n =>
      match n with
      | .ttable kvs =>
        if (alFind kvs key).isSome then (t, .error .alreadyExists)
        else (write_handle t parent (.ttable (alInsert kvs key v)), .ok ())
      | _ => (t, .error .typeMismatch)

/-- `TomlTransaction::make_bool`. -/
def make_bool (t : TTxn) (parent : Nat) (key : String) (v : Bool) :
    TTxn × Except Err Unit :=
  make_value t parent key (.tbool v)

/-- `TomlTransaction::make_int`. -/
def make_int (t : TTxn) (parent : Nat) (key : String) (v : Int) :
    TTxn × Except Err Unit :=
  make_value t parent key (.tint v)

/-- `TomlTransaction::make_double`. -/
def make_double (t : TTxn) (parent : Nat) (key : String) (bits : Nat) :
    TTxn × Except Err Unit :=
  make_value t parent key (.tdouble bits)

/-- `TomlTransaction::make_string`. -/
def make_string (t : TTxn) (parent : Nat) (key : String) (v : String) :
    TTxn × Except Err Unit :=
  make_value t parent key (.tstring v)

/-- Shared body of `make_object`/`make_array`: like `make_value` but
hands out a handle for the parent's path extended by the key. -/
def make_container (t : TTxn) (parent : Nat) (key : String) (v : TNode) :
    TTxn × Except Err Nat :=
  if !is_valid_key key then (t, .error .pathSyntax)
  else
    match get_node_checked t parent with
    | .error e => (t, .error e)
    | .ok n =>
      match n with
      | .ttable kvs =>
        if (alFind kvs key).isSome then (t, .error .alreadyExists)
        else
          let t1 := write_handle t parent (.ttable (alInsert kvs key v))
          let r := make_handle t1 (handle_path t parent ++ [key])
          (r.1, .ok r.2)
      | _ => (t, .error .typeMismatch)

/-- `TomlTransaction::make_object` (a fresh `toml::table`). -/
def make_object (t : TTxn) (parent : Nat) (key : String) : TTxn × Except Err Nat :=
  make_container t parent key (.ttable [])

/-- `TomlTransaction::make_array` (a fresh `toml::array`). -/
def make_array (t : TTxn) (parent : Nat) (key : String) : TTxn × Except Err Nat :=
  make_container t parent key (.tarray [])

/-- `TomlTransaction::remove`. -/
def remove (t : TTxn) (parent : Nat) (key : String) : TTxn × Except Err Unit :=
  match get_node_checked t parent with
  | .error e => (t, .error e)
  | .ok n =>
    match n with
    | .ttable kvs =>
      if (alFind kvs key).isSome then
        (write_handle t parent (.ttable (alErase kvs key)), .ok ())
      else (t, .error .keyNotFound)
    | _ => (t, .error .typeMismatch)

/-- `TomlTransaction::has`. -/
def has (t : TTxn) (parent : Nat) (key : String) : Except Err Bool :=
  match get_node_checked t parent with
  | .error e => .error e
  | .ok n =>
    match n with
    | .ttable kvs => .ok (alFind kvs key).isSome
    | _ => .error .typeMismatch

/-- `TomlTransaction::erase_element`. -/
def erase_element (t : TTxn) (parent : Nat) (idx : Nat) : TTxn × Except Err Unit :=
  match get_node_checked t parent with
  | .error e => (t, .error e)
  | .ok n =>
    match n with
    | .tarray elems =>
      if idx < elems.length then
        (write_handle t parent (.tarray (elems.eraseIdx idx)), .ok ())
      else (t, .error .indexOutOfRange)
    | _ => (t, .error .typeMismatch)

/-- `TomlTransaction::has_element`. -/
def has_element (t : TTxn) (parent : Nat) (idx : Nat) : Except Err Bool :=
  match get_node_checked t parent with
  | .error e => .error e
  | .ok n =>
    match n with
    | .tarray elems => .ok (decide (idx < elems.length))
    | _ => .error .typeMismatch

/-- `TomlTransaction::child`. -/
def child (t : TTxn) (parent : Nat) (key : String) : TTxn × Except Err Nat :=
  match get_node_checked t parent with
  | .error e => (t, .error e)
  | .ok n =>
    match n with
    | .ttable kvs =>
      if (alFind kvs key).isSome then
        let r := make_handle t (handle_path t parent ++ [key])
        (r.1, .ok r.2)
      else (t, .error .keyNotFound)
    | _ => (t, .error .typeMismatch)

/-- `TomlTransaction::element`. -/
def element (t : TTxn) (parent : Nat) (idx : Nat) : TTxn × Except Err Nat :=
  match get_node_checked t parent with
  | .error e => (t, .error e)
  | .ok n =>
    match n with
    | .tarray elems =>
      if idx < elems.length then
        let r := make_handle t (handle_path t parent ++ [toString idx])
        (r.1, .ok r.2)
      else (t, .error .indexOutOfRange)
    | _ => (t, .error .typeMismatch)

/-- `TomlTransaction::rollback_impl`. -/
def rollback_impl (t : TTxn) : TTxn :=
  { t with data := .ttable [], handle_map := [] }

/-- `ITransaction::rollback` for the TOML backend. -/
def rollback (t : TTxn) : TTxn :=
  if !t.committed then { rollback_impl t with committed := true } else t

end TomlTransaction

/-- One call of the `TomlTransaction` operation set, with arguments.
Every operation takes exactly one handle argument. -/
inductive TOp
  | getBool (h : Nat)
  | getInt (h : Nat)
  | getDouble (h : Nat)
  | getString (h : Nat)
  | setBool (h : Nat) (v : Bool)
  | setInt (h : Nat) (v : Int)
  | setDouble (h : Nat) (bits : Nat)
  | setString (h : Nat) (v : String)
  | makeObject (h : Nat) (key : String)
  | makeArray (h : Nat) (key : String)
  | makeBool (h : Nat) (key : String) (v : Bool)
  | makeInt (h : Nat) (key : String) (v : Int)
  | makeDouble (h : Nat) (key : String) (bits : Nat)
  | makeString (h : Nat) (key : String) (v : String)
  | removeKey (h : Nat) (key : String)
  | hasKey (h : Nat) (key : String)
  | eraseElement (h : Nat) (idx : Nat)
  | hasElement (h : Nat) (idx : Nat)
  | childOf (h : Nat) (key : String)
  | elementOf (h : Nat) (idx : Nat)

/-- The result of one TOML operation. -/
inductive TOutcome
  | okUnit
  | okBool (v : Bool)
  | okInt (v : Int)
  | okDouble (bits : Nat)
  | okString (v : String)
  | okHandle (h : Nat)
  | err (e : Err)
deriving DecidableEq, Repr

/-- Wrap a state-preserving typed result. -/
def TOutcome.ofPure {α : Type} (t : TTxn) (f : α → TOutcome) :
    Except Err α → TTxn × TOutcome
  | .ok v => (t, f v)
  | .error e => (t, .err e)

/-- Wrap a state-passing typed result. -/
def TOutcome.ofSt {α : Type} (f : α → TOutcome) :
    TTxn × Except Err α → TTxn × TOutcome
  | (t, .ok v) => (t, f v)
  | (t, .error e) => (t, .err e)

/-- Dispatch one TOML operation against a transaction state. -/
def applyTOp (o : TOp) (t : TTxn) : TTxn × TOutcome :=
  match o with
  | .getBool h => TOutcome.ofPure t TOutcome.okBool (TomlTransaction.get_bool t h)
  | .getInt h => TOutcome.ofPure t TOutcome.okInt (TomlTransaction.get_int t h)
  | .getDouble h => TOutcome.ofPure t TOutcome.okDouble (TomlTransaction.get_double t h)
  | .getString h => TOutcome.ofPure t TOutcome.okString (TomlTransaction.get_string t h)
  | .setBool h v => TOutcome.ofSt (fun _ => .okUnit) (TomlTransaction.set_bool t h v)
  | .setInt h v => TOutcome.ofSt (fun _ => .okUnit) (TomlTransaction.set_int t h v)
  | .setDouble h b => TOutcome.ofSt (fun _ => .okUnit) (TomlTransaction.set_double t h b)
  | .setString h v => TOutcome.ofSt (fun _ => .okUnit) (TomlTransaction.set_string t h v)
  | .makeObject h k => TOutcome.ofSt TOutcome.okHandle (TomlTransaction.make_object t h k)
  | .makeArray h k => TOutcome.ofSt TOutcome.okHandle (TomlTransaction.make_array t h k)
  | .makeBool h k v => TOutcome.ofSt (fun _ => .okUnit) (TomlTransaction.make_bool t h k v)
  | .makeInt h k v => TOutcome.ofSt (fun _ => .okUnit) (TomlTransaction.make_int t h k v)
  | .makeDouble h k b => TOutcome.ofSt (fun _ => .okUnit) (TomlTransaction.make_double t h k b)
  | .makeString h k v => TOutcome.ofSt (fun _ => .okUnit) (TomlTransaction.make_string t h k v)
  | .removeKey h k => TOutcome.ofSt (fun _ => .okUnit) (TomlTransaction.remove t h k)
  | .hasKey h k => TOutcome.ofPure t TOutcome.okBool (TomlTransaction.has t h k)
  | .eraseElement h i => TOutcome.ofSt (fun _ => .okUnit) (TomlTransaction.erase_element t h i)
  | .hasElement h i => TOutcome.ofPure t TOutcome.okBool (TomlTransaction.has_element t h i)
  | .childOf h k => TOutcome.ofSt TOutcome.okHandle (TomlTransaction.child t h k)
  | .elementOf h i => TOutcome.ofSt TOutcome.okHandle (TomlTransaction.element t h i)

/-- The handle argument of a TOML operation. -/
def TOp.handleArg : TOp → Nat
  | .getBool h | .getInt h | .getDouble h | .getString h => h
  | .setBool h _ | .setInt h _ | .setDouble h _ | .setString h _ => h
  | .makeObject h _ | .makeArray h _ => h
  | .makeBool h _ _ | .makeInt h _ _ | .makeDouble h _ _ | .makeString h _ _ => h
  | .removeKey h _ | .hasKey h _ => h
  | .eraseElement h _ | .hasElement h _ => h
  | .childOf h _ | .elementOf h _ => h

/-- Whether the TOML operation's pre-handle checks pass (key grammar for
the `make_*` family). -/
def TOp.preOk : TOp → Bool
  | .makeObject _ k | .makeArray _ k => is_valid_key k
  | .makeBool _ k _ | .makeInt _ k _ | .makeDouble _ k _ | .makeString _ k _ =>
    is_valid_key k
  | _ => true

/-- A step of the JSON store-and-transaction system: a transaction
operation, a `commit` (with its I/O oracle), or a `rollback`. -/
inductive SysOp
  | txnOp (o : JOp)
  | commitOp (io : IoOracle)
  | rollbackOp

/-- Combined state: the store's canonical state, the filesystem entries,
and one outstanding transaction. -/
structure SysState where
  store : JsonStore.State
  fs : FsState
  txn : JTxn

/-- One system step.  A transaction operation receives only the
transaction object, exactly as in the C++ signatures; `commit` is the
single point of contact between a transaction and its store. -/
def applySysOp (st : SysState) (op : SysOp) : SysState :=
  match op with
  | .txnOp o => { st with txn := (applyJOp o st.txn).1 }
  | .commitOp io =>
    match JsonTransaction.commit st.store st.fs io st.txn with
    | (s1, fs1, t1, _) => { store := s1, fs := fs1, txn := t1 }
  | .rollbackOp => { st with txn := JsonTransaction.rollback st.txn }

/-- Run a list of system steps. -/
def runSys (st : SysState) (ops : List SysOp) : SysState :=
  ops.foldl applySysOp st

/-- The handle value issued by an outcome, when there is one. -/
def issuedHandle : JOutcome → Option Nat
  | .okHandle h => some h
  | _ => none

/-- Run a list of transaction operations, collecting in order every
handle value issued by a successful `make_object`/`make_array`/`child`/
`element`. -/
def runTrace : List JOp → JTxn → JTxn × List Nat
  | [], t => (t, [])
  | o :: rest, t =>
    let r := applyJOp o t
    let rr := runTrace rest r.1
    (rr.1, (issuedHandle r.2).toList ++ rr.2)

section Lemmas

/-- Lookup after insert-or-assign at the same key. -/
theorem alFind_alInsert_self {κ α : Type} [DecidableEq κ]
    (l : List (κ × α)) (k : κ) (v : α) : alFind (alInsert l k v) k = some v := by
  induction l with
  | nil => simp [alInsert, alFind]
  | cons kv rest ih =>
    by_cases h : kv.1 = k
    · simp [alInsert, alFind, h]
    · simp [alInsert, alFind, h, ih]

/-- Lookup after insert-or-assign at a different key. -/
theorem alFind_alInsert_ne {κ α : Type} [DecidableEq κ]
    (l : List (κ × α)) (k k' : κ) (v : α) (h : k' ≠ k) :
    alFind (alInsert l k v) k' = alFind l k' := by
  have h' : ¬(k = k') := fun hh => h hh.symm
  induction l with
  | nil => simp [alInsert, alFind, h']
  | cons kv rest ih =>
    rcases kv with ⟨k0, w⟩
    by_cases hk : k0 = k
    · subst hk
      simp [alInsert, alFind, h']
    · by_cases hk' : k0 = k'
      · subst hk'
        simp [alInsert, alFind, hk]
      · simp [alInsert, alFind, hk, hk', ih]

/-- A hit in an insert-or-assign result is the fresh binding or an old
one. -/
theorem alFind_alInsert_cases {κ α : Type} [DecidableEq κ]
    (l : List (κ × α)) (k k' : κ) (v w : α)
    (h : alFind (alInsert l k v) k' = some w) :
    (k' = k ∧ w = v) ∨ alFind l k' = some w := by
  by_cases hk : k' = k
  · subst hk
    rw [alFind_alInsert_self] at h
    exact Or.inl ⟨rfl, (Option.some.inj h).symm⟩
  · rw [alFind_alInsert_ne l k k' v hk] at h
    exact Or.inr h

/-- `write_handle` touches only the snapshot. -/
theorem write_handle_hm (t : JTxn) (h : Nat) (v : JNode) :
    (JsonTransaction.write_handle t h v).handle_map = t.handle_map := by
  unfold JsonTransaction.write_handle
  cases alFind t.handle_map h <;> rfl

/-- `write_handle` touches only the snapshot. -/
theorem write_handle_nh (t : JTxn) (h : Nat) (v : JNode) :
    (JsonTransaction.write_handle t h v).next_handle = t.next_handle := by
  unfold JsonTransaction.write_handle
  cases alFind t.handle_map h <;> rfl

/-- `write_handle` (TOML) touches only the snapshot. -/
theorem twrite_handle_hm (t : TTxn) (h : Nat) (v : TNode) :
    (TomlTransaction.write_handle t h v).handle_map = t.handle_map := by
  unfold TomlTransaction.write_handle
  cases alFind t.handle_map h <;> rfl

/-- `write_handle` (TOML) touches only the snapshot. -/
theorem twrite_handle_nh (t : TTxn) (h : Nat) (v : TNode) :
    (TomlTransaction.write_handle t h v).next_handle = t.next_handle := by
  unfold TomlTransaction.write_handle
  cases alFind t.handle_map h <;> rfl

/-- Every JSON transaction operation either leaves the handle table and
the next-handle counter untouched and issues no handle, or behaves as
one `make_handle` call: it adds exactly one entry at the current
`next_handle_`, increments the counter, and returns that value. -/
theorem applyJOp_shape (o : JOp) (t : JTxn) :
    ((applyJOp o t).1.handle_map = t.handle_map ∧
     (applyJOp o t).1.next_handle = t.next_handle ∧
     ∀ h, (applyJOp o t).2 ≠ JOutcome.okHandle h)
    ∨ (∃ p, (applyJOp o t).1.handle_map = alInsert t.handle_map t.next_handle p ∧
            (applyJOp o t).1.next_handle = t.next_handle + 1 ∧
            (applyJOp o t).2 = JOutcome.okHandle t.next_handle) := by
  cases o with
  | getBool h =>
    left
    cases hx : JsonTransaction.get_bool t h <;> simp [applyJOp, JOutcome.ofPure, hx]
  | getInt h =>
    left
    cases hx : JsonTransaction.get_int t h <;> simp [applyJOp, JOutcome.ofPure, hx]
  | getDouble h =>
    left
    cases hx : JsonTransaction.get_double t h <;> simp [applyJOp, JOutcome.ofPure, hx]
  | getString h =>
    left
    cases hx : JsonTransaction.get_string t h <;> simp [applyJOp, JOutcome.ofPure, hx]
  | setBool h v =>
    left
    cases hx : JsonTransaction.get_node_checked t h <;>
      simp [applyJOp, JsonTransaction.set_bool, hx, JOutcome.ofSt,
        write_handle_hm, write_handle_nh]
  | setInt h v =>
    left
    cases hx : JsonTransaction.get_node_checked t h <;>
      simp [applyJOp, JsonTransaction.set_int, hx, JOutcome.ofSt,
        write_handle_hm, write_handle_nh]
  | setDouble h b =>
    left
    cases hx : JsonTransaction.get_node_checked t h <;>
      simp [applyJOp, JsonTransaction.set_double, hx, JOutcome.ofSt,
        write_handle_hm, write_handle_nh]
  | setString h v =>
    left
    cases hx : JsonTransaction.get_node_checked t h <;>
      simp [applyJOp, JsonTransaction.set_string, hx, JOutcome.ofSt,
        write_handle_hm, write_handle_nh]
  | makeBool h k v =>
    left
    by_cases hk : is_valid_key k
    · cases hx : JsonTransaction.get_node_checked t h with
      | error e =>
        simp [applyJOp, JsonTransaction.make_bool, JsonTransaction.make_value,
          hk, hx, JOutcome.ofSt]
      | ok n =>
        cases n <;>
          simp [applyJOp, JsonTransaction.make_bool, JsonTransaction.make_value,
            hk, hx, JOutcome.ofSt, write_handle_hm, write_handle_nh]
    · simp [applyJOp, JsonTransaction.make_bool, JsonTransaction.make_value,
        hk, JOutcome.ofSt]
  | makeInt h k v =>
    left
    by_cases hk : is_valid_key k
    · cases hx : JsonTransaction.get_node_checked t h with
      | error e =>
        simp [applyJOp, JsonTransaction.make_int, JsonTransaction.make_value,
          hk, hx, JOutcome.ofSt]
      | ok n =>
        cases n <;>
          simp [applyJOp, JsonTransaction.make_int, JsonTransaction.make_value,
            hk, hx, JOutcome.ofSt, write_handle_hm, write_handle_nh]
    · simp [applyJOp, JsonTransaction.make_int, JsonTransaction.make_value,
        hk, JOutcome.ofSt]
  | makeDouble h k b =>
    left
    by_cases hk : is_valid_key k
    · cases hx : JsonTransaction.get_node_checked t h with
      | error e =>
        simp [applyJOp, JsonTransaction.make_double, JsonTransaction.make_value,
          hk, hx, JOutcome.ofSt]
      | ok n =>
        cases n <;>
          simp [applyJOp, JsonTransaction.make_double, JsonTransaction.make_value,
            hk, hx, JOutcome.ofSt, write_handle_hm, write_handle_nh]
    · simp [applyJOp, JsonTransaction.make_double, JsonTransaction.make_value,
        hk, JOutcome.ofSt]
  | makeString h k v =>
    left
    by_cases hk : is_valid_key k
    · cases hx : JsonTransaction.get_node_checked t h with
      | error e =>
        simp [applyJOp, JsonTransaction.make_string, JsonTransaction.make_value,
          hk, hx, JOutcome.ofSt]
      | ok n =>
        cases n <;>
          simp [applyJOp, JsonTransaction.make_string, JsonTransaction.make_value,
            hk, hx, JOutcome.ofSt, write_handle_hm, write_handle_nh]
    · simp [applyJOp, JsonTransaction.make_string, JsonTransaction.make_value,
        hk, JOutcome.ofSt]
  | removeKey h k =>
    left
    cases hx : JsonTransaction.get_node_checked t h with
    | error e => simp [applyJOp, JsonTransaction.remove, hx, JOutcome.ofSt]
    | ok n =>
      cases n with
      | jobject kvs =>
        cases hf : alFind kvs k <;>
          simp [applyJOp, JsonTransaction.remove, hx, hf, JOutcome.ofSt,
            write_handle_hm, write_handle_nh]
      | jnull => simp [applyJOp, JsonTransaction.remove, hx, JOutcome.ofSt]
      | jbool v => simp [applyJOp, JsonTransaction.remove, hx, JOutcome.ofSt]
      | jint v => simp [applyJOp, JsonTransaction.remove, hx, JOutcome.ofSt]
      | jdouble b => simp [applyJOp, JsonTransaction.remove, hx, JOutcome.ofSt]
      | jstring v => simp [applyJOp, JsonTransaction.remove, hx, JOutcome.ofSt]
      | jarray es => simp [applyJOp, JsonTransaction.remove, hx, JOutcome.ofSt]
  | hasKey h k =>
    left
    cases hx : JsonTransaction.has t h k <;> simp [applyJOp, JOutcome.ofPure, hx]
  | eraseElement h i =>
    left
    cases hx : JsonTransaction.get_node_checked t h with
    | error e => simp [applyJOp, JsonTransaction.erase_element, hx, JOutcome.ofSt]
    | ok n =>
      cases n with
      | jarray es =>
        by_cases hi : i < es.length <;>
          simp [applyJOp, JsonTransaction.erase_element, hx, hi, JOutcome.ofSt,
            write_handle_hm, write_handle_nh]
      | jnull => simp [applyJOp, JsonTransaction.erase_element, hx, JOutcome.ofSt]
      | jbool v => simp [applyJOp, JsonTransaction.erase_element, hx, JOutcome.ofSt]
      | jint v => simp [applyJOp, JsonTransaction.erase_element, hx, JOutcome.ofSt]
      | jdouble b => simp [applyJOp, JsonTransaction.erase_element, hx, JOutcome.ofSt]
      | jstring v => simp [applyJOp, JsonTransaction.erase_element, hx, JOutcome.ofSt]
      | jobject kvs => simp [applyJOp, JsonTransaction.erase_element, hx, JOutcome.ofSt]
  | hasElement h i =>
    left
    cases hx : JsonTransaction.has_element t h i <;> simp [applyJOp, JOutcome.ofPure, hx]
  | makeObject h k =>
    by_cases hk : is_valid_key k
    · cases hx : JsonTransaction.get_node_checked t h with
      | error e =>
        left
        simp [applyJOp, JsonTransaction.make_object, JsonTransaction.make_container,
          hk, hx, JOutcome.ofSt]
      | ok n =>
        cases n with
        | jobject kvs =>
          right
          refine ⟨JsonTransaction.handle_path t h ++ [k], ?_, ?_, ?_⟩ <;>
            simp [applyJOp, JsonTransaction.make_object, JsonTransaction.make_container,
              hk, hx, JOutcome.ofSt, JsonTransaction.make_handle,
              write_handle_hm, write_handle_nh]
        | jnull =>
          left
          simp [applyJOp, JsonTransaction.make_object, JsonTransaction.make_container,
            hk, hx, JOutcome.ofSt]
        | jbool v =>
          left
          simp [applyJOp, JsonTransaction.make_object, JsonTransaction.make_container,
            hk, hx, JOutcome.ofSt]
        | jint v =>
          left
          simp [applyJOp, JsonTransaction.make_object, JsonTransaction.make_container,
            hk, hx, JOutcome.ofSt]
        | jdouble b =>
          left
          simp [applyJOp, JsonTransaction.make_object, JsonTransaction.make_container,
            hk, hx, JOutcome.ofSt]
        | jstring v =>
          left
          simp [applyJOp, JsonTransaction.make_object, JsonTransaction.make_container,
            hk, hx, JOutcome.ofSt]
        | jarray es =>
          left
          simp [applyJOp, JsonTransaction.make_object, JsonTransaction.make_container,
            hk, hx, JOutcome.ofSt]
    · left
      simp [applyJOp, JsonTransaction.make_object, JsonTransaction.make_container,
        hk, JOutcome.ofSt]
  | makeArray h k =>
    by_cases hk : is_valid_key k
    · cases hx : JsonTransaction.get_node_checked t h with
      | error e =>
        left
        simp [applyJOp, JsonTransaction.make_array, JsonTransaction.make_container,
          hk, hx, JOutcome.ofSt]
      | ok n =>
        cases n with
        | jobject kvs =>
          right
          refine ⟨JsonTransaction.handle_path t h ++ [k], ?_, ?_, ?_⟩ <;>
            simp [applyJOp, JsonTransaction.make_array, JsonTransaction.make_container,
              hk, hx, JOutcome.ofSt, JsonTransaction.make_handle,
              write_handle_hm, write_handle_nh]
        | jnull =>
          left
          simp [applyJOp, JsonTransaction.make_array, JsonTransaction.make_container,
            hk, hx, JOutcome.ofSt]
        | jbool v =>
          left
          simp [applyJOp, JsonTransaction.make_array, JsonTransaction.make_container,
            hk, hx, JOutcome.ofSt]
        | jint v =>
          left
          simp [applyJOp, JsonTransaction.make_array, JsonTransaction.make_container,
            hk, hx, JOutcome.ofSt]
        | jdouble b =>
          left
          simp [applyJOp, JsonTransaction.make_array, JsonTransaction.make_container,
            hk, hx, JOutcome.ofSt]
        | jstring v =>
          left
          simp [applyJOp, JsonTransaction.make_array, JsonTransaction.make_container,
            hk, hx, JOutcome.ofSt]
        | jarray es =>
          left
          simp [applyJOp, JsonTransaction.make_array, JsonTransaction.make_container,
            hk, hx, JOutcome.ofSt]
    · left
      simp [applyJOp, JsonTransaction.make_array, JsonTransaction.make_container,
        hk, JOutcome.ofSt]
  | childOf h k =>
    cases hx : JsonTransaction.get_node_checked t h with
    | error e =>
      left
      simp [applyJOp, JsonTransaction.child, hx, JOutcome.ofSt]
    | ok n =>
      cases n with
      | jobject kvs =>
        by_cases hf : (alFind kvs k).isSome
        · right
          refine ⟨JsonTransaction.handle_path t h ++ [k], ?_, ?_, ?_⟩ <;>
            simp [applyJOp, JsonTransaction.child, hx, hf, JOutcome.ofSt,
              JsonTransaction.make_handle]
        · left
          simp [applyJOp, JsonTransaction.child, hx, hf, JOutcome.ofSt]
      | jnull => left; simp [applyJOp, JsonTransaction.child, hx, JOutcome.ofSt]
      | jbool v => left; simp [applyJOp, JsonTransaction.child, hx, JOutcome.ofSt]
      | jint v => left; simp [applyJOp, JsonTransaction.child, hx, JOutcome.ofSt]
      | jdouble b => left; simp [applyJOp, JsonTransaction.child, hx, JOutcome.ofSt]
      | jstring v => left; simp [applyJOp, JsonTransaction.child, hx, JOutcome.ofSt]
      | jarray es => left; simp [applyJOp, JsonTransaction.child, hx, JOutcome.ofSt]
  | elementOf h i =>
    cases hx : JsonTransaction.get_node_checked t h with
    | error e =>
      left
      simp [applyJOp, JsonTransaction.element, hx, JOutcome.ofSt]
    | ok n =>
      cases n with
      | jarray es =>
        by_cases hi : i < es.length
        · right
          refine ⟨JsonTransaction.handle_path t h ++ [toString i], ?_, ?_, ?_⟩ <;>
            simp [applyJOp, JsonTransaction.element, hx, hi, JOutcome.ofSt,
              JsonTransaction.make_handle]
        · left
          simp [applyJOp, JsonTransaction.element, hx, hi, JOutcome.ofSt]
      | jnull => left; simp [applyJOp, JsonTransaction.element, hx, JOutcome.ofSt]
      | jbool v => left; simp [applyJOp, JsonTransaction.element, hx, JOutcome.ofSt]
      | jint v => left; simp [applyJOp, JsonTransaction.element, hx, JOutcome.ofSt]
      | jdouble b => left; simp [applyJOp, JsonTransaction.element, hx, JOutcome.ofSt]
      | jstring v => left; simp [applyJOp, JsonTransaction.element, hx, JOutcome.ofSt]
      | jobject kvs => left; simp [applyJOp, JsonTransaction.element, hx, JOutcome.ofSt]

/-- A raw value of 0, an unknown handle, and a non-resolving location
all make `JsonTransaction::get_node_checked` report `InvalidHandle`. -/
theorem get_node_checked_of_bad (t : JTxn) (h : Nat)
    (hb : h = 0 ∨ JsonTransaction.get_node t h = none) :
    JsonTransaction.get_node_checked t h = .error .invalidHandle := by
  unfold JsonTransaction.get_node_checked
  rcases hb with h0 | hn
  · simp [h0]
  · by_cases h0 : h = 0 <;> simp [h0, hn]

/-- `TomlTransaction::get_node_checked` on the zero handle:
`InvalidArgument`. -/
theorem tget_node_checked_zero (t : TTxn) :
    TomlTransaction.get_node_checked t 0 = .error .invalidArgument := by
  unfold TomlTransaction.get_node_checked
  simp

/-- `TomlTransaction::get_node_checked` on a nonzero but non-resolving
handle: `KeyNotFound`. -/
theorem tget_node_checked_unresolved (t : TTxn) (h : Nat) (h0 : h ≠ 0)
    (hn : TomlTransaction.get_node t h = none) :
    TomlTransaction.get_node_checked t h = .error .keyNotFound := by
  unfold TomlTransaction.get_node_checked
  simp [h0, hn]

/-- When an empty handle table makes every lookup miss, `get_node` is
`none` for every handle. -/
theorem get_node_empty (t : JTxn) (h : Nat) (hm : t.handle_map = []) :
    JsonTransaction.get_node t h = none := by
  unfold JsonTransaction.get_node
  simp [hm, alFind]

/-- How `JsonTransaction::make_value` reacts when the parent's
`get_node_checked` fails: the key grammar is checked first, so with a
valid key the checked error surfaces unchanged, and in every case the
state is untouched and some error is returned. -/
theorem make_value_checked_error (t : JTxn) (p : Nat) (k : String) (v : JNode)
    (e : Err) (hc : JsonTransaction.get_node_checked t p = .error e) :
    (is_valid_key k = true → JsonTransaction.make_value t p k v = (t, .error e)) ∧
    ((JsonTransaction.make_value t p k v).1 = t ∧
      ∃ e', (JsonTransaction.make_value t p k v).2 = .error e') := by
  by_cases hk : is_valid_key k
  · refine ⟨fun _ => ?_, ?_, ⟨e, ?_⟩⟩ <;> simp [JsonTransaction.make_value, hk, hc]
  · refine ⟨fun hpre => absurd hpre ?_, ?_, ⟨Err.pathSyntax, ?_⟩⟩ <;>
      simp [JsonTransaction.make_value, hk]

/-- Same for `make_container` (`make_object`/`make_array`). -/
theorem make_container_checked_error (t : JTxn) (p : Nat) (k : String) (v : JNode)
    (e : Err) (hc : JsonTransaction.get_node_checked t p = .error e) :
    (is_valid_key k = true → JsonTransaction.make_container t p k v = (t, .error e)) ∧
    ((JsonTransaction.make_container t p k v).1 = t ∧
      ∃ e', (JsonTransaction.make_container t p k v).2 = .error e') := by
  by_cases hk : is_valid_key k
  · refine ⟨fun _ => ?_, ?_, ⟨e, ?_⟩⟩ <;> simp [JsonTransaction.make_container, hk, hc]
  · refine ⟨fun hpre => absurd hpre ?_, ?_, ⟨Err.pathSyntax, ?_⟩⟩ <;>
      simp [JsonTransaction.make_container, hk]

/-- Every JSON transaction operation whose handle fails
`get_node_checked` performs no mutation; when its pre-handle key check
passes it reports exactly the checked error. -/
theorem applyJOp_checked_error (o : JOp) (t : JTxn) (e : Err)
    (hc : JsonTransaction.get_node_checked t o.handleArg = .error e) :
    (o.preOk = true → applyJOp o t = (t, .err e)) ∧
    ((applyJOp o t).1 = t ∧ ∃ e', (applyJOp o t).2 = .err e') := by
  cases o with
  | getBool h =>
    simp only [JOp.handleArg] at hc
    refine ⟨fun _ => ?_, ?_, ⟨e, ?_⟩⟩ <;>
      simp [applyJOp, JsonTransaction.get_bool, hc, JOutcome.ofPure]
  | getInt h =>
    simp only [JOp.handleArg] at hc
    refine ⟨fun _ => ?_, ?_, ⟨e, ?_⟩⟩ <;>
      simp [applyJOp, JsonTransaction.get_int, hc, JOutcome.ofPure]
  | getDouble h =>
    simp only [JOp.handleArg] at hc
    refine ⟨fun _ => ?_, ?_, ⟨e, ?_⟩⟩ <;>
      simp [applyJOp, JsonTransaction.get_double, hc, JOutcome.ofPure]
  | getString h =>
    simp only [JOp.handleArg] at hc
    refine ⟨fun _ => ?_, ?_, ⟨e, ?_⟩⟩ <;>
      simp [applyJOp, JsonTransaction.get_string, hc, JOutcome.ofPure]
  | setBool h v =>
    simp only [JOp.handleArg] at hc
    refine ⟨fun _ => ?_, ?_, ⟨e, ?_⟩⟩ <;>
      simp [applyJOp, JsonTransaction.set_bool, hc, JOutcome.ofSt]
  | setInt h v =>
    simp only [JOp.handleArg] at hc
    refine ⟨fun _ => ?_, ?_, ⟨e, ?_⟩⟩ <;>
      simp [applyJOp, JsonTransaction.set_int, hc, JOutcome.ofSt]
  | setDouble h b =>
    simp only [JOp.handleArg] at hc
    refine ⟨fun _ => ?_, ?_, ⟨e, ?_⟩⟩ <;>
      simp [applyJOp, JsonTransaction.set_double, hc, JOutcome.ofSt]
  | setString h v =>
    simp only [JOp.handleArg] at hc
    refine ⟨fun _ => ?_, ?_, ⟨e, ?_⟩⟩ <;>
      simp [applyJOp, JsonTransaction.set_string, hc, JOutcome.ofSt]
  | makeObject h k =>
    simp only [JOp.handleArg] at hc
    have hv := make_container_checked_error t h k (.jobject []) e hc
    refine ⟨fun hpre => ?_, ?_, ?_⟩
    · have h1 := hv.1 (by simpa [JOp.preOk] using hpre)
      simp [applyJOp, JsonTransaction.make_object, h1, JOutcome.ofSt]
    · simp only [applyJOp, JsonTransaction.make_object]
      cases hr : JsonTransaction.make_container t h k (.jobject []) with
      | mk t1 r =>
        have h2 := hv.2
        rw [hr] at h2
        rcases h2 with ⟨h2a, e', h2b⟩
        cases r <;> simp_all [JOutcome.ofSt]
    · simp only [applyJOp, JsonTransaction.make_object]
      cases hr : JsonTransaction.make_container t h k (.jobject []) with
      | mk t1 r =>
        have h2 := hv.2
        rw [hr] at h2
        rcases h2 with ⟨h2a, e', h2b⟩
        cases r <;> simp_all [JOutcome.ofSt]
  | makeArray h k =>
    simp only [JOp.handleArg] at hc
    have hv := make_container_checked_error t h k (.jarray []) e hc
    refine ⟨fun hpre => ?_, ?_, ?_⟩
    · have h1 := hv.1 (by simpa [JOp.preOk] using hpre)
      simp [applyJOp, JsonTransaction.make_array, h1, JOutcome.ofSt]
    · simp only [applyJOp, JsonTransaction.make_array]
      cases hr : JsonTransaction.make_container t h k (.jarray []) with
      | mk t1 r =>
        have h2 := hv.2
        rw [hr] at h2
        rcases h2 with ⟨h2a, e', h2b⟩
        cases r <;> simp_all [JOutcome.ofSt]
    · simp only [applyJOp, JsonTransaction.make_array]
      cases hr : JsonTransaction.make_container t h k (.jarray []) with
      | mk t1 r =>
        have h2 := hv.2
        rw [hr] at h2
        rcases h2 with ⟨h2a, e', h2b⟩
        cases r <;> simp_all [JOutcome.ofSt]
  | makeBool h k v =>
    simp only [JOp.handleArg] at hc
    have hv := make_value_checked_error t h k (.jbool v) e hc
    refine ⟨fun hpre => ?_, ?_, ?_⟩
    · have h1 := hv.1 (by simpa [JOp.preOk] using hpre)
      simp [applyJOp, JsonTransaction.make_bool, h1, JOutcome.ofSt]
    · simp only [applyJOp, JsonTransaction.make_bool]
      cases hr : JsonTransaction.make_value t h k (.jbool v) with
      | mk t1 r =>
        have h2 := hv.2
        rw [hr] at h2
        rcases h2 with ⟨h2a, e', h2b⟩
        cases r <;> simp_all [JOutcome.ofSt]
    · simp only [applyJOp, JsonTransaction.make_bool]
      cases hr : JsonTransaction.make_value t h k (.jbool v) with
      | mk t1 r =>
        have h2 := hv.2
        rw [hr] at h2
        rcases h2 with ⟨h2a, e', h2b⟩
        cases r <;> simp_all [JOutcome.ofSt]
  | makeInt h k v =>
    simp only [JOp.handleArg] at hc
    have hv := make_value_checked_error t h k (.jint v) e hc
    refine ⟨fun hpre => ?_, ?_, ?_⟩
    · have h1 := hv.1 (by simpa [JOp.preOk] using hpre)
      simp [applyJOp, JsonTransaction.make_int, h1, JOutcome.ofSt]
    · simp only [applyJOp, JsonTransaction.make_int]
      cases hr : JsonTransaction.make_value t h k (.jint v) with
      | mk t1 r =>
        have h2 := hv.2
        rw [hr] at h2
        rcases h2 with ⟨h2a, e', h2b⟩
        cases r <;> simp_all [JOutcome.ofSt]
    · simp only [applyJOp, JsonTransaction.make_int]
      cases hr : JsonTransaction.make_value t h k (.jint v) with
      | mk t1 r =>
        have h2 := hv.2
        rw [hr] at h2
        rcases h2 with ⟨h2a, e', h2b⟩
        cases r <;> simp_all [JOutcome.ofSt]
  | makeDouble h k b =>
    simp only [JOp.handleArg] at hc
    have hv := make_value_checked_error t h k (.jdouble b) e hc
    refine ⟨fun hpre => ?_, ?_, ?_⟩
    · have h1 := hv.1 (by simpa [JOp.preOk] using hpre)
      simp [applyJOp, JsonTransaction.make_double, h1, JOutcome.ofSt]
    · simp only [applyJOp, JsonTransaction.make_double]
      cases hr : JsonTransaction.make_value t h k (.jdouble b) with
      | mk t1 r =>
        have h2 := hv.2
        rw [hr] at h2
        rcases h2 with ⟨h2a, e', h2b⟩
        cases r <;> simp_all [JOutcome.ofSt]
    · simp only [applyJOp, JsonTransaction.make_double]
      cases hr : JsonTransaction.make_value t h k (.jdouble b) with
      | mk t1 r =>
        have h2 := hv.2
        rw [hr] at h2
        rcases h2 with ⟨h2a, e', h2b⟩
        cases r <;> simp_all [JOutcome.ofSt]
  | makeString h k v =>
    simp only [JOp.handleArg] at hc
    have hv := make_value_checked_error t h k (.jstring v) e hc
    refine ⟨fun hpre => ?_, ?_, ?_⟩
    · have h1 := hv.1 (by simpa [JOp.preOk] using hpre)
      simp [applyJOp, JsonTransaction.make_string, h1, JOutcome.ofSt]
    · simp only [applyJOp, JsonTransaction.make_string]
      cases hr : JsonTransaction.make_value t h k (.jstring v) with
      | mk t1 r =>
        have h2 := hv.2
        rw [hr] at h2
        rcases h2 with ⟨h2a, e', h2b⟩
        cases r <;> simp_all [JOutcome.ofSt]
    · simp only [applyJOp, JsonTransaction.make_string]
      cases hr : JsonTransaction.make_value t h k (.jstring v) with
      | mk t1 r =>
        have h2 := hv.2
        rw [hr] at h2
        rcases h2 with ⟨h2a, e', h2b⟩
        cases r <;> simp_all [JOutcome.ofSt]
  | removeKey h k =>
    simp only [JOp.handleArg] at hc
    refine ⟨fun _ => ?_, ?_, ⟨e, ?_⟩⟩ <;>
      simp [applyJOp, JsonTransaction.remove, hc, JOutcome.ofSt]
  | hasKey h k =>
    simp only [JOp.handleArg] at hc
    refine ⟨fun _ => ?_, ?_, ⟨e, ?_⟩⟩ <;>
      simp [applyJOp, JsonTransaction.has, hc, JOutcome.ofPure]
  | eraseElement h i =>
    simp only [JOp.handleArg] at hc
    refine ⟨fun _ => ?_, ?_, ⟨e, ?_⟩⟩ <;>
      simp [applyJOp, JsonTransaction.erase_element, hc, JOutcome.ofSt]
  | hasElement h i =>
    simp only [JOp.handleArg] at hc
    refine ⟨fun _ => ?_, ?_, ⟨e, ?_⟩⟩ <;>
      simp [applyJOp, JsonTransaction.has_element, hc, JOutcome.ofPure]
  | childOf h k =>
    simp only [JOp.handleArg] at hc
    refine ⟨fun _ => ?_, ?_, ⟨e, ?_⟩⟩ <;>
      simp [applyJOp, JsonTransaction.child, hc, JOutcome.ofSt]
  | elementOf h i =>
    simp only [JOp.handleArg] at hc
    refine ⟨fun _ => ?_, ?_, ⟨e, ?_⟩⟩ <;>
      simp [applyJOp, JsonTransaction.element, hc, JOutcome.ofSt]

/-- How `TomlTransaction::make_value` reacts when the parent's
`get_node_checked` fails (key grammar checked first). -/
theorem tmake_value_checked_error (t : TTxn) (p : Nat) (k : String) (v : TNode)
    (e : Err) (hc : TomlTransaction.get_node_checked t p = .error e) :
    (is_valid_key k = true → TomlTransaction.make_value t p k v = (t, .error e)) ∧
    ((TomlTransaction.make_value t p k v).1 = t ∧
      ∃ e', (TomlTransaction.make_value t p k v).2 = .error e') := by
  by_cases hk : is_valid_key k
  · refine ⟨fun _ => ?_, ?_, ⟨e, ?_⟩⟩ <;> simp [TomlTransaction.make_value, hk, hc]
  · refine ⟨fun hpre => absurd hpre ?_, ?_, ⟨Err.pathSyntax, ?_⟩⟩ <;>
      simp [TomlTransaction.make_value, hk]

/-- Same for `TomlTransaction::make_container`. -/
theorem tmake_container_checked_error (t : TTxn) (p : Nat) (k : String) (v : TNode)
    (e : Err) (hc : TomlTransaction.get_node_checked t p = .error e) :
    (is_valid_key k = true → TomlTransaction.make_container t p k v = (t, .error e)) ∧
    ((TomlTransaction.make_container t p k v).1 = t ∧
      ∃ e', (TomlTransaction.make_container t p k v).2 = .error e') := by
  by_cases hk : is_valid_key k
  · refine ⟨fun _ => ?_, ?_, ⟨e, ?_⟩⟩ <;> simp [TomlTransaction.make_container, hk, hc]
  · refine ⟨fun hpre => absurd hpre ?_, ?_, ⟨Err.pathSyntax, ?_⟩⟩ <;>
      simp [TomlTransaction.make_container, hk]

/-- Every TOML transaction operation whose handle fails
`get_node_checked` performs no mutation; when its pre-handle key check
passes it reports exactly the checked error. -/
theorem applyTOp_checked_error (o : TOp) (t : TTxn) (e : Err)
    (hc : TomlTransaction.get_node_checked t o.handleArg = .error e) :
    (o.preOk = true → applyTOp o t = (t, .err e)) ∧
    ((applyTOp o t).1 = t ∧ ∃ e', (applyTOp o t).2 = .err e') := by
  cases o with
  | getBool h =>
    simp only [TOp.handleArg] at hc
    refine ⟨fun _ => ?_, ?_, ⟨e, ?_⟩⟩ <;>
      simp [applyTOp, TomlTransaction.get_bool, hc, TOutcome.ofPure]
  | getInt h =>
    simp only [TOp.handleArg] at hc
    refine ⟨fun _ => ?_, ?_, ⟨e, ?_⟩⟩ <;>
      simp [applyTOp, TomlTransaction.get_int, hc, TOutcome.ofPure]
  | getDouble h =>
    simp only [TOp.handleArg] at hc
    refine ⟨fun _ => ?_, ?_, ⟨e, ?_⟩⟩ <;>
      simp [applyTOp, TomlTransaction.get_double, hc, TOutcome.ofPure]
  | getString h =>
    simp only [TOp.handleArg] at hc
    refine ⟨fun _ => ?_, ?_, ⟨e, ?_⟩⟩ <;>
      simp [applyTOp, TomlTransaction.get_string, hc, TOutcome.ofPure]
  | setBool h v =>
    simp only [TOp.handleArg] at hc
    refine ⟨fun _ => ?_, ?_, ⟨e, ?_⟩⟩ <;>
      simp [applyTOp, TomlTransaction.set_bool, hc, TOutcome.ofSt]
  | setInt h v =>
    simp only [TOp.handleArg] at hc
    refine ⟨fun _ => ?_, ?_, ⟨e, ?_⟩⟩ <;>
      simp [applyTOp, TomlTransaction.set_int, hc, TOutcome.ofSt]
  | setDouble h b =>
    simp only [TOp.handleArg] at hc
    refine ⟨fun _ => ?_, ?_, ⟨e, ?_⟩⟩ <;>
      simp [applyTOp, TomlTransaction.set_double, hc, TOutcome.ofSt]
  | setString h v =>
    simp only [TOp.handleArg] at hc
    refine ⟨fun _ => ?_, ?_, ⟨e, ?_⟩⟩ <;>
      simp [applyTOp, TomlTransaction.set_string, hc, TOutcome.ofSt]
  | makeObject h k =>
    simp only [TOp.handleArg] at hc
    have hv := tmake_container_checked_error t h k (.ttable []) e hc
    refine ⟨fun hpre => ?_, ?_, ?_⟩
    · have h1 := hv.1 (by simpa [TOp.preOk] using hpre)
      simp [applyTOp, TomlTransaction.make_object, h1, TOutcome.ofSt]
    · simp only [applyTOp, TomlTransaction.make_object]
      cases hr : TomlTransaction.make_container t h k (.ttable []) with
      | mk t1 r =>
        have h2 := hv.2
        rw [hr] at h2
        rcases h2 with ⟨h2a, e', h2b⟩
        cases r <;> simp_all [TOutcome.ofSt]
    · simp only [applyTOp, TomlTransaction.make_object]
      cases hr : TomlTransaction.make_container t h k (.ttable []) with
      | mk t1 r =>
        have h2 := hv.2
        rw [hr] at h2
        rcases h2 with ⟨h2a, e', h2b⟩
        cases r <;> simp_all [TOutcome.ofSt]
  | makeArray h k =>
    simp only [TOp.handleArg] at hc
    have hv := tmake_container_checked_error t h k (.tarray []) e hc
    refine ⟨fun hpre => ?_, ?_, ?_⟩
    · have h1 := hv.1 (by simpa [TOp.preOk] using hpre)
      simp [applyTOp, TomlTransaction.make_array, h1, TOutcome.ofSt]
    · simp only [applyTOp, TomlTransaction.make_array]
      cases hr : TomlTransaction.make_container t h k (.tarray []) with
      | mk t1 r =>
        have h2 := hv.2
        rw [hr] at h2
        rcases h2 with ⟨h2a, e', h2b⟩
        cases r <;> simp_all [TOutcome.ofSt]
    · simp only [applyTOp, TomlTransaction.make_array]
      cases hr : TomlTransaction.make_container t h k (.tarray []) with
      | mk t1 r =>
        have h2 := hv.2
        rw [hr] at h2
        rcases h2 with ⟨h2a, e', h2b⟩
        cases r <;> simp_all [TOutcome.ofSt]
  | makeBool h k v =>
    simp only [TOp.handleArg] at hc
    have hv := tmake_value_checked_error t h k (.tbool v) e hc
    refine ⟨fun hpre => ?_, ?_, ?_⟩
    · have h1 := hv.1 (by simpa [TOp.preOk] using hpre)
      simp [applyTOp, TomlTransaction.make_bool, h1, TOutcome.ofSt]
    · simp only [applyTOp, TomlTransaction.make_bool]
      cases hr : TomlTransaction.make_value t h k (.tbool v) with
      | mk t1 r =>
        have h2 := hv.2
        rw [hr] at h2
        rcases h2 with ⟨h2a, e', h2b⟩
        cases r <;> simp_all [TOutcome.ofSt]
    · simp only [applyTOp, TomlTransaction.make_bool]
      cases hr : TomlTransaction.make_value t h k (.tbool v) with
      | mk t1 r =>
        have h2 := hv.2
        rw [hr] at h2
        rcases h2 with ⟨h2a, e', h2b⟩
        cases r <;> simp_all [TOutcome.ofSt]
  | makeInt h k v =>
    simp only [TOp.handleArg] at hc
    have hv := tmake_value_checked_error t h k (.tint v) e hc
    refine ⟨fun hpre => ?_, ?_, ?_⟩
    · have h1 := hv.1 (by simpa [TOp.preOk] using hpre)
      simp [applyTOp, TomlTransaction.make_int, h1, TOutcome.ofSt]
    · simp only [applyTOp, TomlTransaction.make_int]
      cases hr : TomlTransaction.make_value t h k (.tint v) with
      | mk t1 r =>
        have h2 := hv.2
        rw [hr] at h2
        rcases h2 with ⟨h2a, e', h2b⟩
        cases r <;> simp_all [TOutcome.ofSt]
    · simp only [applyTOp, TomlTransaction.make_int]
      cases hr : TomlTransaction.make_value t h k (.tint v) with
      | mk t1 r =>
        have h2 := hv.2
        rw [hr] at h2
        rcases h2 with ⟨h2a, e', h2b⟩
        cases r <;> simp_all [TOutcome.ofSt]
  | makeDouble h k b =>
    simp only [TOp.handleArg] at hc
    have hv := tmake_value_checked_error t h k (.tdouble b) e hc
    refine ⟨fun hpre => ?_, ?_, ?_⟩
    · have h1 := hv.1 (by simpa [TOp.preOk] using hpre)
      simp [applyTOp, TomlTransaction.make_double, h1, TOutcome.ofSt]
    · simp only [applyTOp, TomlTransaction.make_double]
      cases hr : TomlTransaction.make_value t h k (.tdouble b) with
      | mk t1 r =>
        have h2 := hv.2
        rw [hr] at h2
        rcases h2 with ⟨h2a, e', h2b⟩
        cases r <;> simp_all [TOutcome.ofSt]
    · simp only [applyTOp, TomlTransaction.make_double]
      cases hr : TomlTransaction.make_value t h k (.tdouble b) with
      | mk t1 r =>
        have h2 := hv.2
        rw [hr] at h2
        rcases h2 with ⟨h2a, e', h2b⟩
        cases r <;> simp_all [TOutcome.ofSt]
  | makeString h k v =>
    simp only [TOp.handleArg] at hc
    have hv := tmake_value_checked_error t h k (.tstring v) e hc
    refine ⟨fun hpre => ?_, ?_, ?_⟩
    · have h1 := hv.1 (by simpa [TOp.preOk] using hpre)
      simp [applyTOp, TomlTransaction.make_string, h1, TOutcome.ofSt]
    · simp only [applyTOp, TomlTransaction.make_string]
      cases hr : TomlTransaction.make_value t h k (.tstring v) with
      | mk t1 r =>
        have h2 := hv.2
        rw [hr] at h2
        rcases h2 with ⟨h2a, e', h2b⟩
        cases r <;> simp_all [TOutcome.ofSt]
    · simp only [applyTOp, TomlTransaction.make_string]
      cases hr : TomlTransaction.make_value t h k (.tstring v) with
      | mk t1 r =>
        have h2 := hv.2
        rw [hr] at h2
        rcases h2 with ⟨h2a, e', h2b⟩
        cases r <;> simp_all [TOutcome.ofSt]
  | removeKey h k =>
    simp only [TOp.handleArg] at hc
    refine ⟨fun _ => ?_, ?_, ⟨e, ?_⟩⟩ <;>
      simp [applyTOp, TomlTransaction.remove, hc, TOutcome.ofSt]
  | hasKey h k =>
    simp only [TOp.handleArg] at hc
    refine ⟨fun _ => ?_, ?_, ⟨e, ?_⟩⟩ <;>
      simp [applyTOp, TomlTransaction.has, hc, TOutcome.ofPure]
  | eraseElement h i =>
    simp only [TOp.handleArg] at hc
    refine ⟨fun _ => ?_, ?_, ⟨e, ?_⟩⟩ <;>
      simp [applyTOp, TomlTransaction.erase_element, hc, TOutcome.ofSt]
  | hasElement h i =>
    simp only [TOp.handleArg] at hc
    refine ⟨fun _ => ?_, ?_, ⟨e, ?_⟩⟩ <;>
      simp [applyTOp, TomlTransaction.has_element, hc, TOutcome.ofPure]
  | childOf h k =>
    simp only [TOp.handleArg] at hc
    refine ⟨fun _ => ?_, ?_, ⟨e, ?_⟩⟩ <;>
      simp [applyTOp, TomlTransaction.child, hc, TOutcome.ofSt]
  | elementOf h i =>
    simp only [TOp.handleArg] at hc
    refine ⟨fun _ => ?_, ?_, ⟨e, ?_⟩⟩ <;>
      simp [applyTOp, TomlTransaction.element, hc, TOutcome.ofSt]

/-- Handle-table well-formedness: every recorded handle value is below
the next-handle counter. -/
def HandleInv (t : JTxn) : Prop :=
  ∀ k p, alFind t.handle_map k = some p → k < t.next_handle

/-- The constructor establishes the invariant. -/
theorem handleInv_init (d : JNode) : HandleInv (JsonTransaction.init d) := by
  intro k p hk
  by_cases h1 : (1 : Nat) = k
  · subst h1
    simp [JsonTransaction.init]
  · simp [JsonTransaction.init, alFind, h1] at hk

/-- Every operation preserves the invariant. -/
theorem handleInv_step (o : JOp) (t : JTxn) (hi : HandleInv t) :
    HandleInv (applyJOp o t).1 := by
  rcases applyJOp_shape o t with ⟨hm, hn, _⟩ | ⟨p, hm, hn, _⟩
  · intro k q hk
    rw [hm] at hk
    rw [hn]
    exact hi k q hk
  · intro k q hk
    rw [hm] at hk
    rw [hn]
    rcases alFind_alInsert_cases _ _ _ _ _ hk with ⟨rfl, _⟩ | hold
    · omega
    · have := hi k q hold
      omega

/-- A successfully issued handle is exactly the pre-state counter, the
counter advances by one, and the value was not previously recorded. -/
theorem issued_fresh (o : JOp) (t : JTxn) (hi : HandleInv t) (h : Nat)
    (hv : (applyJOp o t).2 = JOutcome.okHandle h) :
    h = t.next_handle ∧ (applyJOp o t).1.next_handle = t.next_handle + 1 ∧
    alFind t.handle_map h = none := by
  rcases applyJOp_shape o t with ⟨_, _, hno⟩ | ⟨p, hm, hn, hv'⟩
  · exact absurd hv (hno h)
  · rw [hv] at hv'
    have hh : h = t.next_handle := by
      have := JOutcome.okHandle.inj hv'
      omega
    refine ⟨hh, hn, ?_⟩
    rw [hh]
    cases hf : alFind t.handle_map t.next_handle with
    | none => rfl
    | some q => exact absurd (hi _ _ hf) (lt_irrefl _)

/-- When no handle is issued the counter does not move. -/
theorem counter_static (o : JOp) (t : JTxn)
    (hv : ∀ h, (applyJOp o t).2 ≠ JOutcome.okHandle h) :
    (applyJOp o t).1.next_handle = t.next_handle := by
  rcases applyJOp_shape o t with ⟨_, hn, _⟩ | ⟨p, _, _, hv'⟩
  · exact hn
  · exact absurd hv' (hv t.next_handle)

/-- No operation removes or rewrites a recorded handle-table entry. -/
theorem entry_preserved (o : JOp) (t : JTxn) (hi : HandleInv t) (k : Nat)
    (p : List String) (hk : alFind t.handle_map k = some p) :
    alFind (applyJOp o t).1.handle_map k = some p := by
  rcases applyJOp_shape o t with ⟨hm, _, _⟩ | ⟨q, hm, _, _⟩
  · rw [hm]
    exact hk
  · rw [hm]
    have hkn : k ≠ t.next_handle := by
      have := hi k p hk
      omega
    rw [alFind_alInsert_ne _ _ _ _ hkn]
    exact hk

/-- Along any run, the issued handle values are strictly increasing and
bounded below by the starting counter. -/
theorem runTrace_sorted (ops : List JOp) (t : JTxn) :
    List.Pairwise (· < ·) (runTrace ops t).2 ∧
    ∀ x ∈ (runTrace ops t).2, t.next_handle ≤ x := by
  induction ops generalizing t with
  | nil => simp [runTrace]
  | cons o rest ih =>
    rcases applyJOp_shape o t with ⟨_, hn, hno⟩ | ⟨p, _, hn, hv⟩
    · have hiss : issuedHandle (applyJOp o t).2 = none := by
        cases hres : (applyJOp o t).2 with
        | okHandle h => exact absurd hres (hno h)
        | okUnit => rfl
        | okBool v => rfl
        | okInt v => rfl
        | okDouble v => rfl
        | okString v => rfl
        | err e => rfl
      have trace_eq :
          (runTrace (o :: rest) t).2 = (runTrace rest (applyJOp o t).1).2 := by
        simp [runTrace, hiss]
      obtain ⟨ihp, ihb⟩ := ih (applyJOp o t).1
      refine ⟨by rw [trace_eq]; exact ihp, ?_⟩
      intro x hx
      rw [trace_eq] at hx
      have := ihb x hx
      omega
    · have hiss : issuedHandle (applyJOp o t).2 = some t.next_handle := by
        rw [hv]
        rfl
      have trace_eq :
          (runTrace (o :: rest) t).2 =
            t.next_handle :: (runTrace rest (applyJOp o t).1).2 := by
        simp [runTrace, hiss]
      obtain ⟨ihp, ihb⟩ := ih (applyJOp o t).1
      constructor
      · rw [trace_eq]
        refine List.Pairwise.cons ?_ ihp
        intro x hx
        have := ihb x hx
        rw [hn] at this
        omega
      · intro x hx
        rw [trace_eq] at hx
        rcases List.mem_cons.mp hx with rfl | hx'
        · exact le_refl _
        · have := ihb x hx'
          rw [hn] at this
          omega

end Lemmas

/-- Claim C1 (code bug, JSON side): at the failing input — a snapshot
whose root object already contains key `k` — `JsonTransaction::make_int`
returns success and silently overwrites the stored value, because the
JSON `make_*` family never calls `contains`; at the same input the TOML
backend returns `AlreadyExists` and leaves its snapshot unchanged, as
the specification (and the TOML test suite) demand. -/
theorem c1_json_make_overwrites_duplicate_key :
    (JsonTransaction.make_int
        (JsonTransaction.init (JNode.jobject [("k", JNode.jint 1)])) 1 "k" 2).2
      = .ok () ∧
    (JsonTransaction.make_int
        (JsonTransaction.init (JNode.jobject [("k", JNode.jint 1)])) 1 "k" 2).1.data
      = JNode.jobject [("k", JNode.jint 2)] ∧
    (TomlTransaction.make_int
        (TomlTransaction.init (TNode.ttable [("k", TNode.tint 1)])) 1 "k" 2).2
      = .error .alreadyExists ∧
    (TomlTransaction.make_int
        (TomlTransaction.init (TNode.ttable [("k", TNode.tint 1)])) 1 "k" 2).1.data
      = TNode.ttable [("k", TNode.tint 1)] := by
  refine ⟨rfl, rfl, rfl, rfl⟩

/-- Claim C2 (code bug, JSON side): at the failing input — a handle to a
string node — `JsonTransaction::set_int` returns success and silently
retypes the node to an integer, because the JSON `set_*` family performs
no type check before the assignment; at the same input the TOML backend
returns `TypeMismatch` and leaves the node unchanged. -/
theorem c2_json_set_int_retypes_string :
    (JsonTransaction.child
        (JsonTransaction.init (JNode.jobject [("k", JNode.jstring "v")])) 1 "k").2
      = .ok 2 ∧
    (JsonTransaction.set_int
        (JsonTransaction.child
          (JsonTransaction.init (JNode.jobject [("k", JNode.jstring "v")])) 1 "k").1
        2 7).2 = .ok () ∧
    (JsonTransaction.set_int
        (JsonTransaction.child
          (JsonTransaction.init (JNode.jobject [("k", JNode.jstring "v")])) 1 "k").1
        2 7).1.data = JNode.jobject [("k", JNode.jint 7)] ∧
    (TomlTransaction.child
        (TomlTransaction.init (TNode.ttable [("k", TNode.tstring "v")])) 1 "k").2
      = .ok 2 ∧
    (TomlTransaction.set_int
        (TomlTransaction.child
          (TomlTransaction.init (TNode.ttable [("k", TNode.tstring "v")])) 1 "k").1
        2 7).2 = .error .typeMismatch ∧
    (TomlTransaction.set_int
        (TomlTransaction.child
          (TomlTransaction.init (TNode.ttable [("k", TNode.tstring "v")])) 1 "k").1
        2 7).1.data = TNode.ttable [("k", TNode.tstring "v")] := by
  refine ⟨rfl, rfl, rfl, rfl, rfl, rfl⟩

/-- Claim C3: `commit` succeeds exactly when the temporary-file write
and the rename both succeed; on success the canonical tree and the file
are replaced with the snapshot and the transaction becomes Committed; on
any persistence failure the store, the file and the transaction are
untouched (it remains Active) and an immediate retry with working I/O
succeeds. -/
theorem c3_commit_only_after_persist (s : JsonStore.State) (fs : FsState)
    (io : IoOracle) (t : JTxn) (hs : t.has_store = true)
    (ha : t.committed = false) :
    ((JsonTransaction.commit s fs io t).2.2.2 = .ok () ↔
      io.writeOk = true ∧ io.renameOk = true) ∧
    ((JsonTransaction.commit s fs io t).2.2.2 = .ok () →
      (JsonTransaction.commit s fs io t).1.data = t.data ∧
      (JsonTransaction.commit s fs io t).2.1.file = some t.data ∧
      (JsonTransaction.commit s fs io t).2.2.1.committed = true) ∧
    (∀ e, (JsonTransaction.commit s fs io t).2.2.2 = .error e →
      (JsonTransaction.commit s fs io t).1 = s ∧
      (JsonTransaction.commit s fs io t).2.1.file = fs.file ∧
      (JsonTransaction.commit s fs io t).2.2.1 = t ∧
      (JsonTransaction.commit s fs io t).2.2.1.committed = false ∧
      (JsonTransaction.commit s
        (JsonTransaction.commit s fs io t).2.1 ⟨true, true⟩
        (JsonTransaction.commit s fs io t).2.2.1).2.2.2 = .ok ()) := by
  rcases io with ⟨w, r⟩
  cases w <;> cases r <;>
    simp [JsonTransaction.commit, JsonTransaction.commit_impl,
      JsonStore.save_to_file, JsonStore.update_data, hs, ha]

/-- Witness for C3 at a concrete store, filesystem, oracle and
transaction. -/
theorem c3_witness :
    (JsonTransaction.commit ⟨true, JNode.jobject []⟩ ⟨none, none⟩ ⟨true, true⟩
        (JsonTransaction.init (JNode.jobject []))).2.2.2 = .ok () :=
  (c3_commit_only_after_persist ⟨true, JNode.jobject []⟩ ⟨none, none⟩
      ⟨true, true⟩ (JsonTransaction.init (JNode.jobject [])) rfl rfl).1.mpr
    ⟨rfl, rfl⟩

/-- Claim C4: a transaction obtained from `begin_transaction` starts
from a deep copy of the canonical tree, and any run of transaction
operations that contains no `commit`, ended by a `rollback` (the
destructor of an Active transaction performs the same `rollback_impl`),
leaves the store's canonical state and the file exactly as they were
when `begin_transaction` was called. -/
theorem c4_uncommitted_txn_leaves_store (s : JsonStore.State) (fs : FsState)
    (ops : List SysOp) (t : JTxn)
    (hb : JsonStore.begin_transaction s = .ok t)
    (hnc : ∀ op ∈ ops, ∀ io, op ≠ SysOp.commitOp io) :
    t.data = s.data ∧
    (runSys ⟨s, fs, t⟩ (ops ++ [SysOp.rollbackOp])).store = s ∧
    (runSys ⟨s, fs, t⟩ (ops ++ [SysOp.rollbackOp])).fs = fs := by
  have hdata : t.data = s.data := by
    unfold JsonStore.begin_transaction at hb
    by_cases ho : s.is_open
    · simp [ho] at hb
      rw [← hb]
      rfl
    · simp [ho] at hb
  have hstep : ∀ (ops' : List SysOp) (st : SysState),
      (∀ op ∈ ops', ∀ io, op ≠ SysOp.commitOp io) →
      (runSys st ops').store = st.store ∧ (runSys st ops').fs = st.fs := by
    intro ops'
    induction ops' with
    | nil => intro st _; exact ⟨rfl, rfl⟩
    | cons op rest ih =>
      intro st hno
      have hop : ∀ io, op ≠ SysOp.commitOp io := hno op (List.mem_cons_self op rest)
      have hrest : ∀ o ∈ rest, ∀ io, o ≠ SysOp.commitOp io :=
        fun o ho io => hno o (List.mem_cons_of_mem op ho) io
      have h1 : (applySysOp st op).store = st.store ∧ (applySysOp st op).fs = st.fs := by
        cases op with
        | txnOp o => exact ⟨rfl, rfl⟩
        | commitOp io => exact absurd rfl (hop io)
        | rollbackOp => exact ⟨rfl, rfl⟩
      have h2 := ih (applySysOp st op) hrest
      refine ⟨?_, ?_⟩
      · show (runSys (applySysOp st op) rest).store = st.store
        rw [h2.1, h1.1]
      · show (runSys (applySysOp st op) rest).fs = st.fs
        rw [h2.2, h1.2]
  have hnc' : ∀ op ∈ ops ++ [SysOp.rollbackOp], ∀ io, op ≠ SysOp.commitOp io := by
    intro op hop io
    rcases List.mem_append.mp hop with h1 | h1
    · exact hnc op h1 io
    · rcases List.mem_singleton.mp h1 with rfl
      intro hcontra
      cases hcontra
  have := hstep (ops ++ [SysOp.rollbackOp]) ⟨s, fs, t⟩ hnc'
  exact ⟨hdata, this.1, this.2⟩

/-- Witness for C4: one `make_string` then rollback on a store opened
with one committed key, as in scenario S2. -/
theorem c4_witness :
    (JsonTransaction.init (JNode.jobject [("a", JNode.jstring "1")])).data
      = JNode.jobject [("a", JNode.jstring "1")] ∧
    (runSys ⟨⟨true, JNode.jobject [("a", JNode.jstring "1")]⟩, ⟨none, none⟩,
        JsonTransaction.init (JNode.jobject [("a", JNode.jstring "1")])⟩
      ([SysOp.txnOp (JOp.makeString 1 "b" "2")] ++ [SysOp.rollbackOp])).store
      = ⟨true, JNode.jobject [("a", JNode.jstring "1")]⟩ ∧
    (runSys ⟨⟨true, JNode.jobject [("a", JNode.jstring "1")]⟩, ⟨none, none⟩,
        JsonTransaction.init (JNode.jobject [("a", JNode.jstring "1")])⟩
      ([SysOp.txnOp (JOp.makeString 1 "b" "2")] ++ [SysOp.rollbackOp])).fs
      = ⟨none, none⟩ :=
  c4_uncommitted_txn_leaves_store
    ⟨true, JNode.jobject [("a", JNode.jstring "1")]⟩ ⟨none, none⟩
    [SysOp.txnOp (JOp.makeString 1 "b" "2")]
    (JsonTransaction.init (JNode.jobject [("a", JNode.jstring "1")]))
    rfl
    (by
      intro op hop io
      simp at hop
      subst hop
      intro hcontra
      cases hcontra)

/-- Claim C5 (counterexample): a transaction that has successfully
committed (its `committed_` flag is set) accepts a second `commit`,
which re-runs `commit_impl` and succeeds — it does not fail
`invalid_state` — because `ITransaction::commit` never consults the
flag. -/
theorem c5_counterexample_second_commit_succeeds :
    ((JsonTransaction.commit ⟨true, JNode.jobject []⟩ ⟨none, none⟩ ⟨true, true⟩
        (JsonTransaction.init (JNode.jobject []))).2.2.1.committed = true) ∧
    ((JsonTransaction.commit
        (JsonTransaction.commit ⟨true, JNode.jobject []⟩ ⟨none, none⟩ ⟨true, true⟩
          (JsonTransaction.init (JNode.jobject []))).1
        (JsonTransaction.commit ⟨true, JNode.jobject []⟩ ⟨none, none⟩ ⟨true, true⟩
          (JsonTransaction.init (JNode.jobject []))).2.1
        ⟨true, true⟩
        (JsonTransaction.commit ⟨true, JNode.jobject []⟩ ⟨none, none⟩ ⟨true, true⟩
          (JsonTransaction.init (JNode.jobject []))).2.2.1).2.2.2 = .ok ()) := by
  exact ⟨rfl, rfl⟩

/-- Claim C5 (amended): `rollback` clears the handle table and sets the
finalized flag, after which every handle-taking operation fails and
leaves the transaction unchanged, and `rollback` is idempotent; but the
terminal states are not absorbing for `commit`: `commit` never checks
the flag, so committing an already-Committed (or rolled-back)
transaction re-runs `commit_impl` and succeeds whenever persistence
succeeds, instead of failing `invalid_state`. -/
theorem c5_amended_terminal_states :
    (∀ t : JTxn, t.committed = false →
      (JsonTransaction.rollback t).handle_map = [] ∧
      (JsonTransaction.rollback t).committed = true) ∧
    (∀ (o : JOp) (t : JTxn), t.handle_map = [] →
      (applyJOp o t).1 = t ∧ ∃ e, (applyJOp o t).2 = JOutcome.err e) ∧
    (∀ t : JTxn,
      JsonTransaction.rollback (JsonTransaction.rollback t) =
        JsonTransaction.rollback t) ∧
    (∀ (s : JsonStore.State) (fs : FsState) (t : JTxn),
      t.committed = true → t.has_store = true →
      (JsonTransaction.commit s fs ⟨true, true⟩ t).2.2.2 = .ok ()) := by
  refine ⟨?_, ?_, ?_, ?_⟩
  · intro t hc
    simp [JsonTransaction.rollback, JsonTransaction.rollback_impl, hc]
  · intro o t hm
    have hchk : JsonTransaction.get_node_checked t o.handleArg
        = .error .invalidHandle :=
      get_node_checked_of_bad t o.handleArg (Or.inr (get_node_empty t _ hm))
    exact (applyJOp_checked_error o t _ hchk).2
  · intro t
    by_cases hc : t.committed
    · simp [JsonTransaction.rollback, hc]
    · simp [JsonTransaction.rollback, JsonTransaction.rollback_impl, hc]
  · intro s fs t _ hs
    simp [JsonTransaction.commit, JsonTransaction.commit_impl,
      JsonStore.save_to_file, JsonStore.update_data, hs]

/-- Witness for C5 at a concrete rolled-back transaction and a concrete
committed transaction. -/
theorem c5_witness :
    ((JsonTransaction.rollback (JsonTransaction.init (JNode.jobject []))).handle_map
        = [] ∧
      (JsonTransaction.rollback (JsonTransaction.init (JNode.jobject []))).committed
        = true) ∧
    ((applyJOp (JOp.getInt 1)
        (JsonTransaction.rollback (JsonTransaction.init (JNode.jobject [])))).1
      = JsonTransaction.rollback (JsonTransaction.init (JNode.jobject [])) ∧
      ∃ e, (applyJOp (JOp.getInt 1)
        (JsonTransaction.rollback (JsonTransaction.init (JNode.jobject [])))).2
        = JOutcome.err e) ∧
    (JsonTransaction.commit ⟨true, JNode.jobject []⟩ ⟨none, none⟩ ⟨true, true⟩
        ⟨JNode.jobject [], [], 2, true, true⟩).2.2.2 = .ok () :=
  ⟨c5_amended_terminal_states.1 (JsonTransaction.init (JNode.jobject [])) rfl,
   c5_amended_terminal_states.2.1 (JOp.getInt 1)
     (JsonTransaction.rollback (JsonTransaction.init (JNode.jobject []))) rfl,
   c5_amended_terminal_states.2.2.2 ⟨true, JNode.jobject []⟩ ⟨none, none⟩
     ⟨JNode.jobject [], [], 2, true, true⟩ rfl rfl⟩

/-- Claim C6 (counterexample): at a handle to an integer node, the JSON
backend's `get_double` succeeds (an integral node widens), but the TOML
backend's `get_double` (`as_floating_point`) fails `TypeMismatch` — the
typed-read behaviour is not identical across the two backends and the
widening clause is false for TOML. -/
theorem c6_counterexample_toml_no_widening :
    (TomlTransaction.child
        (TomlTransaction.init (TNode.ttable [("n", TNode.tint 5)])) 1 "n").2
      = .ok 2 ∧
    TomlTransaction.get_double
        (TomlTransaction.child
          (TomlTransaction.init (TNode.ttable [("n", TNode.tint 5)])) 1 "n").1 2
      = .error .typeMismatch ∧
    (JsonTransaction.child
        (JsonTransaction.init (JNode.jobject [("n", JNode.jint 5)])) 1 "n").2
      = .ok 2 ∧
    JsonTransaction.get_double
        (JsonTransaction.child
          (JsonTransaction.init (JNode.jobject [("n", JNode.jint 5)])) 1 "n").1 2
      = .ok (.fromInt 5) := by
  refine ⟨rfl, rfl, rfl, rfl⟩

/-- Claim C6 (amended): for a resolving handle, `get_int` succeeds in
both backends exactly on an integral node; `get_double` succeeds in the
JSON backend exactly on an integral or floating node (the integral node
widens), but in the TOML backend exactly on a floating node — the
widening does not carry over, so the two backends differ on integral
nodes. -/
theorem c6_amended_typed_reads :
    (∀ (t : JTxn) (h : Nat) (n : JNode),
      JsonTransaction.get_node_checked t h = .ok n →
      ((∃ v, JsonTransaction.get_int t h = .ok v) ↔ ∃ v, n = JNode.jint v) ∧
      ((∃ v, JsonTransaction.get_double t h = .ok v) ↔
        (∃ v, n = JNode.jint v) ∨ ∃ b, n = JNode.jdouble b)) ∧
    (∀ (t : TTxn) (h : Nat) (n : TNode),
      TomlTransaction.get_node_checked t h = .ok n →
      ((∃ v, TomlTransaction.get_int t h = .ok v) ↔ ∃ v, n = TNode.tint v) ∧
      ((∃ b, TomlTransaction.get_double t h = .ok b) ↔
        ∃ b, n = TNode.tdouble b)) := by
  refine ⟨?_, ?_⟩
  · intro t h n hc
    constructor
    · simp only [JsonTransaction.get_int, hc]
      cases n <;> simp
    · simp only [JsonTransaction.get_double, hc]
      cases n <;> simp
  · intro t h n hc
    constructor
    · simp only [TomlTransaction.get_int, hc]
      cases n <;> simp
    · simp only [TomlTransaction.get_double, hc]
      cases n <;> simp

/-- Witness for C6 at concrete resolving handles (the snapshot root). -/
theorem c6_witness :
    (((∃ v, JsonTransaction.get_int (JsonTransaction.init (JNode.jint 5)) 1 = .ok v)
        ↔ ∃ v, JNode.jint 5 = JNode.jint v) ∧
      ((∃ v, JsonTransaction.get_double (JsonTransaction.init (JNode.jint 5)) 1 = .ok v)
        ↔ (∃ v, JNode.jint 5 = JNode.jint v) ∨ ∃ b, JNode.jint 5 = JNode.jdouble b)) ∧
    (((∃ v, TomlTransaction.get_int (TomlTransaction.init (TNode.tint 5)) 1 = .ok v)
        ↔ ∃ v, TNode.tint 5 = TNode.tint v) ∧
      ((∃ b, TomlTransaction.get_double (TomlTransaction.init (TNode.tint 5)) 1 = .ok b)
        ↔ ∃ b, TNode.tint 5 = TNode.tdouble b)) :=
  ⟨c6_amended_typed_reads.1 (JsonTransaction.init (JNode.jint 5)) 1 (JNode.jint 5) rfl,
   c6_amended_typed_reads.2 (TomlTransaction.init (TNode.tint 5)) 1 (TNode.tint 5) rfl⟩

/-- Claim C7 (counterexample): the TOML backend reports
`InvalidArgument` — not `invalid_handle` and not `key_not_found` — for
the zero handle (exactly what its test suite requires). -/
theorem c7_counterexample_toml_invalid_argument :
    (TomlTransaction.set_int (TomlTransaction.init (TNode.ttable [])) 0 7).2
      = .error .invalidArgument ∧
    Err.invalidArgument ≠ Err.invalidHandle ∧
    Err.invalidArgument ≠ Err.keyNotFound := by
  refine ⟨rfl, by decide, by decide⟩

/-- Claim C7 (amended): for every operation whose pre-handle key check
passes, a zero or non-resolving handle yields `InvalidHandle` in the
JSON backend, while the TOML backend yields `InvalidArgument` for the
zero handle and `KeyNotFound` for a nonzero non-resolving one; in every
case (key check aside) the snapshot and handle table are untouched. -/
theorem c7_amended_invalid_handles :
    (∀ (o : JOp) (t : JTxn), o.preOk = true →
      (o.handleArg = 0 ∨ JsonTransaction.get_node t o.handleArg = none) →
      applyJOp o t = (t, JOutcome.err Err.invalidHandle)) ∧
    (∀ (o : TOp) (t : TTxn), o.preOk = true → o.handleArg = 0 →
      applyTOp o t = (t, TOutcome.err Err.invalidArgument)) ∧
    (∀ (o : TOp) (t : TTxn), o.preOk = true → o.handleArg ≠ 0 →
      TomlTransaction.get_node t o.handleArg = none →
      applyTOp o t = (t, TOutcome.err Err.keyNotFound)) ∧
    (∀ (o : JOp) (t : JTxn),
      (o.handleArg = 0 ∨ JsonTransaction.get_node t o.handleArg = none) →
      (applyJOp o t).1 = t) ∧
    (∀ (o : TOp) (t : TTxn),
      (o.handleArg = 0 ∨ TomlTransaction.get_node t o.handleArg = none) →
      (applyTOp o t).1 = t) := by
  refine ⟨?_, ?_, ?_, ?_, ?_⟩
  · intro o t hpre hb
    exact (applyJOp_checked_error o t _ (get_node_checked_of_bad t _ hb)).1 hpre
  · intro o t hpre h0
    have hchk : TomlTransaction.get_node_checked t o.handleArg
        = .error .invalidArgument := by
      rw [h0]
      exact tget_node_checked_zero t
    exact (applyTOp_checked_error o t _ hchk).1 hpre
  · intro o t hpre h0 hn
    exact (applyTOp_checked_error o t _
      (tget_node_checked_unresolved t _ h0 hn)).1 hpre
  · intro o t hb
    exact (applyJOp_checked_error o t _ (get_node_checked_of_bad t _ hb)).2.1
  · intro o t hb
    by_cases h0 : o.handleArg = 0
    · have hchk : TomlTransaction.get_node_checked t o.handleArg
          = .error .invalidArgument := by
        rw [h0]
        exact tget_node_checked_zero t
      exact (applyTOp_checked_error o t _ hchk).2.1
    · rcases hb with h0' | hn
      · exact absurd h0' h0
      · exact (applyTOp_checked_error o t _
          (tget_node_checked_unresolved t _ h0 hn)).2.1

/-- Witness for C7 at concrete operations: a zero handle and a stale
nonzero handle in each backend. -/
theorem c7_witness :
    applyJOp (JOp.getInt 0) (JsonTransaction.init (JNode.jobject []))
      = (JsonTransaction.init (JNode.jobject []), JOutcome.err Err.invalidHandle) ∧
    applyJOp (JOp.getInt 9) (JsonTransaction.init (JNode.jobject []))
      = (JsonTransaction.init (JNode.jobject []), JOutcome.err Err.invalidHandle) ∧
    applyTOp (TOp.getInt 0) (TomlTransaction.init (TNode.ttable []))
      = (TomlTransaction.init (TNode.ttable []), TOutcome.err Err.invalidArgument) ∧
    applyTOp (TOp.getInt 9) (TomlTransaction.init (TNode.ttable []))
      = (TomlTransaction.init (TNode.ttable []), TOutcome.err Err.keyNotFound) :=
  ⟨c7_amended_invalid_handles.1 (JOp.getInt 0) _ rfl (Or.inl rfl),
   c7_amended_invalid_handles.1 (JOp.getInt 9) _ rfl (Or.inr rfl),
   c7_amended_invalid_handles.2.1 (TOp.getInt 0) _ rfl rfl,
   c7_amended_invalid_handles.2.2.1 (TOp.getInt 9) _ rfl (by decide) rfl⟩

/-- Claim C8 (counterexample): a stored location whose second segment is
the all-digit string `12` does not resolve against an Object that has
the key `12`: both backends take the array-index branch on an all-digit
non-first segment and fail when the current node is not an Array,
instead of falling back to an object-key lookup.  (A digit key directly
under the root — first segment — does resolve.) -/
theorem c8_counterexample_digit_key_under_object :
    JsonTransaction.navigate_to_node
        (JNode.jobject [("a", JNode.jobject [("12", JNode.jint 5)])]) ["a"]
      = some (JNode.jobject [("12", JNode.jint 5)]) ∧
    JsonTransaction.navigate_to_node
        (JNode.jobject [("a", JNode.jobject [("12", JNode.jint 5)])]) ["a", "12"]
      = none ∧
    TomlTransaction.navigate_to_node
        (TNode.ttable [("a", TNode.ttable [("12", TNode.tint 5)])]) ["a", "12"]
      = none ∧
    JsonTransaction.navigate_to_node (JNode.jobject [("7", JNode.jint 9)]) ["7"]
      = some (JNode.jint 9) := by
  refine ⟨rfl, rfl, rfl, rfl⟩

/-- Claim C8 (amended): location resolution treats a segment as an array
index iff it is not the first segment and is all decimal digits —
irrespective of the current node's type.  When that branch is taken and
the current node is an Array the segment indexes it; when the current
node is not an Array, resolution fails (it is never reinterpreted as an
object key, even if the Object there has that digit key).  A first
segment, or any non-digit segment, is an object-key lookup.  Both
backends behave identically here. -/
theorem c8_amended_location_resolution :
    (∀ (kvs : List (String × JNode)) (seg : String) (rest : List String) (i : Nat),
      0 < i → isDigitSeg seg = true →
      JsonTransaction.navFrom (JNode.jobject kvs) (seg :: rest) i = none) ∧
    (∀ (elems : List JNode) (seg : String) (rest : List String) (i : Nat),
      0 < i → isDigitSeg seg = true →
      JsonTransaction.navFrom (JNode.jarray elems) (seg :: rest) i =
        (match elems.get? (segToIndex seg) with
         | some e => JsonTransaction.navFrom e rest (i + 1)
         | none => none)) ∧
    (∀ (kvs : List (String × JNode)) (seg : String) (rest : List String),
      JsonTransaction.navFrom (JNode.jobject kvs) (seg :: rest) 0 =
        (match alFind kvs seg with
         | some v => JsonTransaction.navFrom v rest 1
         | none => none)) ∧
    (∀ (kvs : List (String × JNode)) (seg : String) (rest : List String) (i : Nat),
      isDigitSeg seg = false →
      JsonTransaction.navFrom (JNode.jobject kvs) (seg :: rest) i =
        (match alFind kvs seg with
         | some v => JsonTransaction.navFrom v rest (i + 1)
         | none => none)) ∧
    (∀ (kvs : List (String × TNode)) (seg : String) (rest : List String) (i : Nat),
      0 < i → isDigitSeg seg = true →
      TomlTransaction.navFrom (TNode.ttable kvs) (seg :: rest) i = none) ∧
    (∀ (kvs : List (String × TNode)) (seg : String) (rest : List String),
      TomlTransaction.navFrom (TNode.ttable kvs) (seg :: rest) 0 =
        (match alFind kvs seg with
         | some v => TomlTransaction.navFrom v rest 1
         | none => none)) := by
  refine ⟨?_, ?_, ?_, ?_, ?_, ?_⟩
  · intro kvs seg rest i hi hd
    simp [JsonTransaction.navFrom, hi, hd]
  · intro elems seg rest i hi hd
    simp [JsonTransaction.navFrom, hi, hd]
  · intro kvs seg rest
    simp [JsonTransaction.navFrom]
  · intro kvs seg rest i hd
    simp [JsonTransaction.navFrom, hd]
  · intro kvs seg rest i hi hd
    simp [TomlTransaction.navFrom, hi, hd]
  · intro kvs seg rest
    simp [TomlTransaction.navFrom]

/-- Witness for C8 at a concrete snapshot and location. -/
theorem c8_witness :
    JsonTransaction.navFrom (JNode.jobject [("12", JNode.jint 5)]) ["12"] 1 = none ∧
    JsonTransaction.navFrom (JNode.jobject [("12", JNode.jint 5)]) ["12"] 0 =
      (match alFind [("12", JNode.jint 5)] "12" with
       | some v => JsonTransaction.navFrom v [] 1
       | none => none) ∧
    TomlTransaction.navFrom (TNode.ttable [("12", TNode.tint 5)]) ["12"] 1 = none :=
  ⟨c8_amended_location_resolution.1 [("12", JNode.jint 5)] "12" [] 1
      (by decide) (by decide),
   c8_amended_location_resolution.2.2.1 [("12", JNode.jint 5)] "12" [],
   c8_amended_location_resolution.2.2.2.2.1 [("12", TNode.tint 5)] "12" [] 1
      (by decide) (by decide)⟩

/-- Claim C9 (counterexample): after `close()` succeeds, `commit` on an
outstanding transaction does not fail `invalid_state` — it succeeds
and persists to the file, because `commit_impl` only checks the raw
`store_` pointer and `save_to_file`/`update_data` never consult the
open flag. -/
theorem c9_counterexample_commit_after_close :
    (JsonStore.close ⟨true, JNode.jobject [("a", JNode.jint 1)]⟩).2 = .ok () ∧
    (JsonTransaction.commit
        (JsonStore.close ⟨true, JNode.jobject [("a", JNode.jint 1)]⟩).1
        ⟨none, none⟩ ⟨true, true⟩
        (JsonTransaction.init (JNode.jobject [("a", JNode.jint 1)]))).2.2.2
      = .ok () ∧
    (JsonTransaction.commit
        (JsonStore.close ⟨true, JNode.jobject [("a", JNode.jint 1)]⟩).1
        ⟨none, none⟩ ⟨true, true⟩
        (JsonTransaction.init (JNode.jobject [("a", JNode.jint 1)]))).2.1.file
      = some (JNode.jobject [("a", JNode.jint 1)]) := by
  refine ⟨rfl, rfl, rfl⟩

/-- Claim C9 (amended): `close()` on an open store succeeds, marks the
store closed and clears its canonical tree; an outstanding transaction's
snapshot is untouched by the close (it holds its own copy, and `close`
receives no transaction), but its `commit` does NOT fail
`invalid_state`: with working I/O it succeeds, writes the file through
the temporary-and-rename path, and repopulates the closed store's
canonical tree with the snapshot. -/
theorem c9_amended_commit_after_close (s : JsonStore.State) (fs : FsState)
    (t : JTxn) (hopen : s.is_open = true) (hs : t.has_store = true) :
    (JsonStore.close s).2 = .ok () ∧
    (JsonStore.close s).1.is_open = false ∧
    (JsonTransaction.commit (JsonStore.close s).1 fs ⟨true, true⟩ t).2.2.2
      = .ok () ∧
    (JsonTransaction.commit (JsonStore.close s).1 fs ⟨true, true⟩ t).2.1.file
      = some t.data ∧
    (JsonTransaction.commit (JsonStore.close s).1 fs ⟨true, true⟩ t).1.data
      = t.data ∧
    (JsonTransaction.commit (JsonStore.close s).1 fs ⟨true, true⟩ t).2.2.1.data
      = t.data := by
  simp [JsonStore.close, hopen, JsonTransaction.commit, JsonTransaction.commit_impl,
    JsonStore.save_to_file, JsonStore.update_data, hs]

/-- Witness for C9 at a concrete open store and outstanding
transaction. -/
theorem c9_witness :
    (JsonStore.close ⟨true, JNode.jobject []⟩).2 = .ok () ∧
    (JsonStore.close ⟨true, JNode.jobject []⟩).1.is_open = false ∧
    (JsonTransaction.commit (JsonStore.close ⟨true, JNode.jobject []⟩).1
        ⟨none, none⟩ ⟨true, true⟩
        (JsonTransaction.init (JNode.jobject []))).2.2.2 = .ok () ∧
    (JsonTransaction.commit (JsonStore.close ⟨true, JNode.jobject []⟩).1
        ⟨none, none⟩ ⟨true, true⟩
        (JsonTransaction.init (JNode.jobject []))).2.1.file
      = some (JsonTransaction.init (JNode.jobject [])).data ∧
    (JsonTransaction.commit (JsonStore.close ⟨true, JNode.jobject []⟩).1
        ⟨none, none⟩ ⟨true, true⟩
        (JsonTransaction.init (JNode.jobject []))).1.data
      = (JsonTransaction.init (JNode.jobject [])).data ∧
    (JsonTransaction.commit (JsonStore.close ⟨true, JNode.jobject []⟩).1
        ⟨none, none⟩ ⟨true, true⟩
        (JsonTransaction.init (JNode.jobject []))).2.2.1.data
      = (JsonTransaction.init (JNode.jobject [])).data :=
  c9_amended_commit_after_close ⟨true, JNode.jobject []⟩ ⟨none, none⟩
    (JsonTransaction.init (JNode.jobject [])) rfl rfl

/-- Claim C10: within one JSON transaction the root handle is always 1
(with the root location recorded at construction and `next_handle_`
starting at 2); every handle issued by a successful `make_object`/
`make_array`/`child`/`element` equals the pre-state counter, advances
the counter by one, and was never recorded (hence never returned)
before; operations that issue no handle leave the counter unchanged;
the table invariant (all recorded values below the counter) is
established at construction and preserved by every operation; no
operation ever removes or rewrites a handle-table entry (only
`rollback_impl` clears the table); and along any run the issued handle
values are pairwise distinct — two successful calls, even resolving the
same node, return different values. -/
theorem c10_handle_table_freshness :
    (∀ t : JTxn, JsonTransaction.root t = .ok 1) ∧
    (∀ d : JNode, (JsonTransaction.init d).handle_map = [(1, [])] ∧
      (JsonTransaction.init d).next_handle = 2) ∧
    (∀ d : JNode, HandleInv (JsonTransaction.init d)) ∧
    (∀ (o : JOp) (t : JTxn), HandleInv t → HandleInv (applyJOp o t).1) ∧
    (∀ (o : JOp) (t : JTxn) (h : Nat), HandleInv t →
      (applyJOp o t).2 = JOutcome.okHandle h →
      h = t.next_handle ∧ (applyJOp o t).1.next_handle = t.next_handle + 1 ∧
      alFind t.handle_map h = none) ∧
    (∀ (o : JOp) (t : JTxn),
      (∀ h, (applyJOp o t).2 ≠ JOutcome.okHandle h) →
      (applyJOp o t).1.next_handle = t.next_handle) ∧
    (∀ (o : JOp) (t : JTxn) (k : Nat) (p : List String), HandleInv t →
      alFind t.handle_map k = some p →
      alFind (applyJOp o t).1.handle_map k = some p) ∧
    (∀ (ops : List JOp) (t : JTxn), (runTrace ops t).2.Nodup) := by
  refine ⟨?_, ?_, ?_, ?_, ?_, ?_, ?_, ?_⟩
  · intro t
    rfl
  · intro d
    exact ⟨rfl, rfl⟩
  · exact handleInv_init
  · exact handleInv_step
  · intro o t h hi hv
    exact issued_fresh o t hi h hv
  · exact counter_static
  · intro o t k p hi hk
    exact entry_preserved o t hi k p hk
  · intro ops t
    exact List.Pairwise.imp (fun hlt => Nat.ne_of_lt hlt) (runTrace_sorted ops t).1

/-- Witness for C10: a run that makes an object and fetches a child of
the same node twice — handles 2, 3, 4, all distinct. -/
theorem c10_witness :
    HandleInv (JsonTransaction.init (JNode.jobject [])) ∧
    ((applyJOp (JOp.makeObject 1 "a") (JsonTransaction.init (JNode.jobject []))).2
        = JOutcome.okHandle 2 →
      (2 : Nat) = (JsonTransaction.init (JNode.jobject [])).next_handle ∧
      (applyJOp (JOp.makeObject 1 "a")
        (JsonTransaction.init (JNode.jobject []))).1.next_handle
        = (JsonTransaction.init (JNode.jobject [])).next_handle + 1 ∧
      alFind (JsonTransaction.init (JNode.jobject [])).handle_map 2 = none) ∧
    (runTrace [JOp.makeObject 1 "a", JOp.childOf 1 "a", JOp.childOf 1 "a"]
      (JsonTransaction.init (JNode.jobject []))).2.Nodup :=
  ⟨c10_handle_table_freshness.2.2.1 (JNode.jobject []),
   c10_handle_table_freshness.2.2.2.2.1 (JOp.makeObject 1 "a")
     (JsonTransaction.init (JNode.jobject [])) 2
     (c10_handle_table_freshness.2.2.1 (JNode.jobject [])),
   c10_handle_table_freshness.2.2.2.2.2.2.2
     [JOp.makeObject 1 "a", JOp.childOf 1 "a", JOp.childOf 1 "a"]
     (JsonTransaction.init (JNode.jobject []))⟩


end IonVortex
